import Mathlib

/-!
Recurly client: the XML write/read models and the resource services.

A shallow embedding of `adjustments.go` and `redemptions.go` (and of the webhook
dispatcher exercised by `webhooks_test.go`).

XML documents are element trees.  The Go standard library (`encoding/xml`,
`strconv`, `strings`, `fmt`) is embedded at the level of its behaviour on those
trees: struct fields are matched to child elements by name, character data of an
element is the concatenation of its direct text children, unknown children are
skipped, a repeated scalar child overwrites, a repeated slice child appends, and a
decode into a struct or slice works in place and stops at the first error.  Writing
a tree with `xml.Encoder` and tokenising it again is `Node.wire`.

Decoding functions take the value held before the call and return the value held
after it together with the error (`none` is Go's nil error).  The shared client
records every `newRequest` and `do` made on it; a service method returns its Go
results together with the client as the call left it.
-/

namespace Recurly

/-! ## Errors -/

/-- The error values a call can surface (spec section 7), together with the
errors of the standard library: `UnmarshalError` for a failed decode
(`xml.UnmarshalError`, `strconv.NumError`, `io.EOF`) and `BuildError` for a request
that cannot be built (`http.NewRequest`). -/
inductive Error where
  | ParseError
  | ValidationError
  | NotFound
  | RateLimited
  | UnrecognizedWebhook
  | TransportError
  | RequestError (status : Nat)
  | UnmarshalError
  | BuildError
deriving DecidableEq, Repr

/-! ## XML element trees -/

/-- An attribute of a start element (`xml.Attr`, local name and value). -/
structure Attr where
  Name : String
  Value : String
deriving DecidableEq, Repr

/-- An XML node: an element with its attributes and children, or character data. -/
inductive Node where
  | elem (name : String) (attrs : List Attr) (children : List Node)
  | text (data : String)
deriving Repr

/-- Local name of the element (`start.Name.Local`); character data has none. -/
def Node.name : Node → String
  | .elem n _ _ => n
  | .text _ => ""

/-- Attributes of the start element (`start.Attr`). -/
def Node.attrs : Node → List Attr
  | .elem _ as _ => as
  | .text _ => []

/-- Child nodes of an element. -/
def Node.children : Node → List Node
  | .elem _ _ cs => cs
  | .text _ => []

/-- Whether the node is an element (a `StartElement` token opens it). -/
def Node.isElem : Node → Bool
  | .elem _ _ _ => true
  | .text _ => false

/-- Character data collected by the decoder for a scalar field: the `CharData`
tokens directly inside the element, concatenated; nested elements are skipped. -/
def chardataOf : List Node → String
  | [] => ""
  | .text s :: rest => s ++ chardataOf rest
  | .elem _ _ _ :: rest => chardataOf rest

/-- Character data of an element. -/
def Node.chardata (n : Node) : String := chardataOf n.children

/-- Value of the first attribute with the given local name. -/
def findAttr (name : String) : List Attr → Option String
  | [] => none
  | a :: rest => if a.Name = name then some a.Value else findAttr name rest

/-! ## Text on the wire -/

/-- Go `xml.isInCharacterRange`: the characters XML 1.0 allows in a document. -/
def isInCharacterRange (r : Char) : Bool :=
  r.toNat = 0x09 || r.toNat = 0x0A || r.toNat = 0x0D ||
  (0x20 ≤ r.toNat && r.toNat ≤ 0xD7FF) ||
  (0xE000 ≤ r.toNat && r.toNat ≤ 0xFFFD) ||
  (0x10000 ≤ r.toNat && r.toNat ≤ 0x10FFFF)

/-- What one character of a Go string becomes once written by `xml.EscapeText` and
read back by the decoder: markup characters are escaped and unescaped again, a
character outside the XML range is written as U+FFFD. -/
def wireChar (r : Char) : Char :=
  if isInCharacterRange r then r else Char.ofNat 0xFFFD

/-- Character data of a text node after a trip through encoder and tokenizer. -/
def wireText (s : String) : String := String.mk (s.data.map wireChar)

/-- A string the encoder writes unchanged (every character is XML-legal). -/
def xmlSafe (s : String) : Prop := ∀ c ∈ s.data, isInCharacterRange c = true

instance (s : String) : Decidable (xmlSafe s) := by
  unfold xmlSafe; infer_instance

mutual
/-- The element tree the decoder sees after the tree was serialised by
`xml.Encoder` and tokenised again: same elements, every text sanitised. -/
def Node.wire : Node → Node
  | .elem n as cs => .elem n (as.map fun a => ⟨a.Name, wireText a.Value⟩) (wireList cs)
  | .text s => .text (wireText s)
/-- Pointwise `Node.wire` over a list of children. -/
def wireList : List Node → List Node
  | [] => []
  | c :: cs => c.wire :: wireList cs
end

/-! ## strconv and strings -/

/-- Decimal digit character of a value below ten. -/
def digitChar (d : Nat) : Char := Char.ofNat (48 + d)

/-- Value of a decimal digit character. -/
def digitVal (c : Char) : Option Nat :=
  if 48 ≤ c.toNat ∧ c.toNat ≤ 57 then some (c.toNat - 48) else none

/-- Digits of a natural number, most significant first, pushed onto `acc`. -/
def formatUintAux : Nat → Nat → List Char → List Char
  | 0, _, acc => acc
  | fuel + 1, n, acc =>
    if n < 10 then digitChar n :: acc
    else formatUintAux fuel (n / 10) (digitChar (n % 10) :: acc)

/-- Go `strconv.FormatUint(n, 10)`. -/
def formatUint (n : Nat) : List Char := formatUintAux (n + 1) n []

/-- Go `strconv.FormatInt(i, 10)` (also `strconv.Itoa`). -/
def formatInt (i : Int) : String :=
  if i < 0 then String.mk ('-' :: formatUint i.natAbs) else String.mk (formatUint i.natAbs)

/-- Accumulates decimal digits; fails on the first non-digit. -/
def parseDigits : List Char → Nat → Option Nat
  | [], acc => some acc
  | c :: cs, acc =>
    match digitVal c with
    | none => none
    | some d => parseDigits cs (acc * 10 + d)

/-- Go `strconv.ParseUint(s, 10, _)` without the range check: at least one digit,
digits only. -/
def parseUint (cs : List Char) : Option Nat :=
  match cs with
  | [] => none
  | _ :: _ => parseDigits cs 0

/-- Go `strconv.ParseInt(s, 10, 64)`: optional sign, digits, value within int64. -/
def parseInt (s : String) : Option Int :=
  match s.data with
  | [] => none
  | c :: rest =>
    if c = '+' then
      match parseUint rest with
      | some un => if un ≥ 2 ^ 63 then none else some (Int.ofNat un)
      | none => none
    else if c = '-' then
      match parseUint rest with
      | some un => if un > 2 ^ 63 then none else some (- Int.ofNat un)
      | none => none
    else
      match parseUint (c :: rest) with
      | some un => if un ≥ 2 ^ 63 then none else some (Int.ofNat un)
      | none => none

/-- A character `strconv.FormatInt` can write: the minus sign or a decimal digit. -/
def isNumChar (c : Char) : Prop := c = '-' ∨ ∃ d, d < 10 ∧ c = digitChar d

/-- Go `unicode.IsSpace`. -/
def isSpace (c : Char) : Bool :=
  c.toNat = 0x09 || c.toNat = 0x0A || c.toNat = 0x0B || c.toNat = 0x0C || c.toNat = 0x0D ||
  c.toNat = 0x20 || c.toNat = 0x85 || c.toNat = 0xA0 || c.toNat = 0x1680 ||
  (0x2000 ≤ c.toNat && c.toNat ≤ 0x200A) || c.toNat = 0x2028 || c.toNat = 0x2029 ||
  c.toNat = 0x202F || c.toNat = 0x205F || c.toNat = 0x3000

/-- Go `strings.TrimSpace`. -/
def trimSpace (s : String) : String :=
  String.mk ((s.data.dropWhile isSpace).reverse.dropWhile isSpace).reverse

/-- Go `strconv.ParseBool`. -/
def parseBool (s : String) : Option Bool :=
  if s = "1" ∨ s = "t" ∨ s = "T" ∨ s = "TRUE" ∨ s = "true" ∨ s = "True" then some true
  else if s = "0" ∨ s = "f" ∨ s = "F" ∨ s = "FALSE" ∨ s = "false" ∨ s = "False" then some false
  else none

/-- Go `strconv.FormatBool`. -/
def formatBool (b : Bool) : String := if b then "true" else "false"

/-- An int that fits the 64-bit Go `int`. -/
def isInt64 (i : Int) : Prop := -(2 ^ 63) ≤ i ∧ i < 2 ^ 63

instance (i : Int) : Decidable (isInt64 i) := by
  unfold isInt64; infer_instance

/-! ## Building elements (xml.Encoder on struct fields) -/

/-- An element holding only character data; an empty string writes no text token. -/
def textElem (name : String) (s : String) : Node :=
  .elem name [] (if s = "" then [] else [.text s])

/-- A string field tagged `omitempty`: omitted when empty. -/
def omitemptyString (name : String) (s : String) : List Node :=
  if s = "" then [] else [textElem name s]

/-- An int field tagged `omitempty`: omitted when zero. -/
def omitemptyInt (name : String) (i : Int) : List Node :=
  if i = 0 then [] else [textElem name (formatInt i)]

/-! ## Scalars of the standard library that are left abstract -/

/-- A Go `float64`, by its IEEE-754 bit pattern. -/
structure Float64 where
  bits : Nat
deriving DecidableEq, Repr

/-- A Go `time.Time`, as seconds and nanoseconds since the epoch. -/
structure Time where
  sec : Int
  nsec : Nat
deriving DecidableEq, Repr

/-- The two text parsers of the standard library whose grammar is not embedded:
`strconv.ParseFloat(s, 64)` and the timestamp parser behind `NullTime`. -/
structure Scalars where
  parseFloat : String → Option Float64
  parseTime : String → Option Time

/-! ## Decoding scalar fields (xml.Decoder, `copyValue`) -/

/-- A string field takes the character data as is. -/
def unmarshalString (_old : String) (c : Node) : String × Option Error :=
  (c.chardata, none)

/-- An int field (`copyValue`, Go 1.10 and later): empty character data gives 0,
otherwise `strconv.ParseInt(strings.TrimSpace(data), 10, 64)`; the field is unchanged
on error. -/
def unmarshalInt (old : Int) (c : Node) : Int × Option Error :=
  if c.chardata = "" then (0, none)
  else match parseInt (trimSpace c.chardata) with
    | some i => (i, none)
    | none => (old, some .UnmarshalError)

/-- A float64 field: empty character data gives 0, otherwise
`strconv.ParseFloat(strings.TrimSpace(data), 64)`; unchanged on error. -/
def unmarshalFloat (sc : Scalars) (old : Float64) (c : Node) : Float64 × Option Error :=
  if c.chardata = "" then (⟨0⟩, none)
  else match sc.parseFloat (trimSpace c.chardata) with
    | some f => (f, none)
    | none => (old, some .UnmarshalError)

/-- The decoder loop of `Decoder.unmarshal` on a struct: every child element is
offered to the field matcher `f` in document order, character data between the
children is ignored, and the first error stops the loop with the struct as filled
so far. -/
def unmarshalChildren {σ : Type} (f : σ → Node → σ × Option Error) :
    List Node → σ → σ × Option Error
  | [], v => (v, none)
  | c :: cs, v =>
    if c.isElem then
      match f v c with
      | (v1, none) => unmarshalChildren f cs v1
      | (v1, some e) => (v1, some e)
    else unmarshalChildren f cs v

/-! ## Nullable scalar codec (spec 4.1) -/

/-- Modelled from the spec: the `NullBool` type (its declaration is not in the
sources at hand), an optional boolean: `none` is unset, `some b` is set to `b`. -/
abbrev NullBool := Option Bool

/-- Modelled from the spec: the `NullTime` type (its declaration is not in the
sources at hand), an optional timestamp. -/
abbrev NullTime := Option Time

/-- Modelled from the spec: `NullBool.MarshalXML`, which is not in the sources at
hand.  Spec 4.1 (a): encoding an unset value omits the element entirely, encoding a
set value emits the plain scalar. -/
def NullBool.MarshalXML (n : NullBool) (name : String) : List Node :=
  match n with
  | none => []
  | some b => [textElem name (formatBool b)]

/-- Modelled from the spec: the provider's explicit null of the nullable codec
(spec 4.1, 6), which is not in the sources at hand: an element with a
`nil="true"` attribute and no text content. -/
def isExplicitNil (c : Node) : Bool :=
  decide (findAttr "nil" c.attrs = some "true") && decide (c.chardata = "")

/-- Modelled from the spec: `NullBool.UnmarshalXML`, which is not in the sources at
hand.  Spec 4.1 (b): an element with `nil="true"` and no text content is unset, an
element with a literal value is set, and an element with neither the nil attribute
nor parseable content fails with a ParseError. -/
def NullBool.UnmarshalXML (old : NullBool) (c : Node) : NullBool × Option Error :=
  if isExplicitNil c then (none, none)
  else match parseBool (trimSpace c.chardata) with
    | some b => (some b, none)
    | none => (old, some .ParseError)

/-- Modelled from the spec: `NullTime.UnmarshalXML`, which is not in the sources at
hand; same three-way convention as `NullBool.UnmarshalXML` (spec 4.1). -/
def NullTime.UnmarshalXML (sc : Scalars) (old : NullTime) (c : Node) : NullTime × Option Error :=
  if isExplicitNil c then (none, none)
  else match sc.parseTime (trimSpace c.chardata) with
    | some t => (some t, none)
    | none => (old, some .ParseError)

/-! ## Href-reference decoder (spec 4.2) -/

/-- Modelled from the spec: part of the trailing-segment utility (spec 4.2), which
is not in the sources at hand: what follows the first `://` of a link, if there is
one. -/
def afterScheme : List Char → Option (List Char)
  | [] => none
  | c :: rest =>
    if c = ':' ∧ rest.take 2 = ['/', '/'] then some (rest.drop 2) else afterScheme rest

/-- Modelled from the spec: part of the trailing-segment utility (spec 4.2), which
is not in the sources at hand: the path of a link, that is what follows the
authority when the link has a scheme, the whole link otherwise. -/
def urlPath (href : List Char) : List Char :=
  match afterScheme href with
  | some tail => tail.dropWhile (fun c => c != '/')
  | none => href

/-- Modelled from the spec: part of the trailing-segment utility (spec 4.2), which
is not in the sources at hand: the pieces between the slashes. -/
def splitSlash : List Char → List (List Char)
  | [] => [[]]
  | c :: cs =>
    if c = '/' then [] :: splitSlash cs
    else match splitSlash cs with
      | [] => [[c]]
      | s :: ss => (c :: s) :: ss

/-- Modelled from the spec: part of the trailing-segment utility (spec 4.2), which
is not in the sources at hand: the path segments of a link (empty pieces dropped). -/
def pathSegments (href : String) : List (List Char) :=
  (splitSlash (urlPath href.data)).filter (fun s => !s.isEmpty)

/-- Modelled from the spec: the trailing-segment utility of the href decoder (spec
4.2, 9), which is not in the sources at hand: the final path segment of the link. -/
def lastSegment (href : String) : Option String :=
  (pathSegments href).getLast?.map String.mk

/-- Modelled from the spec: the `hrefString` type, declared outside the sources at
hand; the conversion `string(v.AccountCode)` shows it is a string. -/
abbrev hrefString := String

/-- Modelled from the spec: the `hrefInt` type, declared outside the sources at
hand; the conversion `int(v.InvoiceNumber)` shows it is an int. -/
abbrev hrefInt := Int

/-- Modelled from the spec: `hrefString.UnmarshalXML`, which is not in the sources
at hand.  Spec 4.2: returns the final path segment of the `href` attribute as a
plain string; fails with a ParseError if the attribute is absent or the path cannot
be split. -/
def hrefString.UnmarshalXML (old : hrefString) (c : Node) : hrefString × Option Error :=
  match findAttr "href" c.attrs with
  | none => (old, some .ParseError)
  | some href =>
    match lastSegment href with
    | none => (old, some .ParseError)
    | some seg => (seg, none)

/-- Modelled from the spec: `hrefInt.UnmarshalXML`, which is not in the sources at
hand.  Spec 4.2: returns the final path segment of the `href` attribute as an
integer; fails with a ParseError if the attribute is absent, the path cannot be
split, or the segment is not a number. -/
def hrefInt.UnmarshalXML (old : hrefInt) (c : Node) : hrefInt × Option Error :=
  match findAttr "href" c.attrs with
  | none => (old, some .ParseError)
  | some href =>
    match lastSegment href with
    | none => (old, some .ParseError)
    | some seg =>
      match parseInt seg with
      | some i => (i, none)
      | none => (old, some .ParseError)

/-! ## Adjustments (adjustments.go) -/

/-- TaxDetail holds tax information and is embedded in an Adjustment.  The Go field
`Type` is written `Type_`. -/
structure TaxDetail where
  XMLName : String := ""
  Name : String := ""
  Type_ : String := ""
  TaxRate : Float64 := ⟨0⟩
  TaxInCents : Int := 0
deriving DecidableEq, Repr

/-- Adjustment works with charges and credits on a given account. -/
structure Adjustment where
  AccountCode : String := ""
  InvoiceNumber : Int := 0
  UUID : String := ""
  State : String := ""
  Description : String := ""
  AccountingCode : String := ""
  ProductCode : String := ""
  Origin : String := ""
  UnitAmountInCents : Int := 0
  Quantity : Int := 0
  OriginalAdjustmentUUID : String := ""
  DiscountInCents : Int := 0
  TaxInCents : Int := 0
  TotalInCents : Int := 0
  Currency : String := ""
  Taxable : NullBool := none
  TaxCode : String := ""
  TaxType : String := ""
  TaxRegion : String := ""
  TaxRate : Float64 := ⟨0⟩
  TaxExempt : NullBool := none
  TaxDetails : List TaxDetail := []
  StartDate : NullTime := none
  EndDate : NullTime := none
  CreatedAt : NullTime := none
deriving DecidableEq, Repr

/-- The anonymous struct `v` of `Adjustment.MarshalXML`: the write model. -/
structure AdjustmentWrite where
  Description : String
  AccountingCode : String
  UnitAmountInCents : Int
  Quantity : Int
  Currency : String
  TaxCode : String
  TaxExempt : NullBool
deriving DecidableEq, Repr

/-- The call `e.Encode(v)` on the write model: root `adjustment`, one child per field in
declaration order, `omitempty` fields left out when empty. -/
def AdjustmentWrite.encode (v : AdjustmentWrite) : Node :=
  .elem "adjustment" []
    (omitemptyString "description" v.Description ++
     omitemptyString "accounting_code" v.AccountingCode ++
     [textElem "unit_amount_in_cents" (formatInt v.UnitAmountInCents)] ++
     omitemptyInt "quantity" v.Quantity ++
     [textElem "currency" v.Currency] ++
     omitemptyString "tax_code" v.TaxCode ++
     NullBool.MarshalXML v.TaxExempt "tax_exempt")

/-- MarshalXML marshals only the fields needed for creating/updating adjustments
with the recurly API.  The encoder cannot fail on the write model, so the returned
error is always nil and only the element written is kept. -/
def Adjustment.MarshalXML (a : Adjustment) : Node :=
  AdjustmentWrite.encode
    { Description := a.Description
      AccountingCode := a.AccountingCode
      UnitAmountInCents := a.UnitAmountInCents
      Quantity := a.Quantity
      Currency := a.Currency
      TaxCode := a.TaxCode
      TaxExempt := a.TaxExempt }

/-- Field matcher of the decoder for a `TaxDetail`. -/
def TaxDetail.unmarshalPath (sc : Scalars) (v : TaxDetail) (c : Node) : TaxDetail × Option Error :=
  if c.name = "name" then
    let r := unmarshalString v.Name c; ({ v with Name := r.1 }, r.2)
  else if c.name = "type" then
    let r := unmarshalString v.Type_ c; ({ v with Type_ := r.1 }, r.2)
  else if c.name = "tax_rate" then
    let r := unmarshalFloat sc v.TaxRate c; ({ v with TaxRate := r.1 }, r.2)
  else if c.name = "tax_in_cents" then
    let r := unmarshalInt v.TaxInCents c; ({ v with TaxInCents := r.1 }, r.2)
  else (v, none)

/-- Decoding one `tax_detail` element into a zero `TaxDetail`. -/
def TaxDetail.unmarshal (sc : Scalars) (start : Node) : TaxDetail × Option Error :=
  if start.name = "tax_detail" then
    unmarshalChildren (TaxDetail.unmarshalPath sc) start.children { XMLName := start.name }
  else ({}, some .UnmarshalError)

/-- A slice field grows by one zero element, decodes into it, and is cut back to its
old length when that decode fails. -/
def appendTaxDetail (sc : Scalars) (ds : List TaxDetail) (c : Node) :
    List TaxDetail × Option Error :=
  match TaxDetail.unmarshal sc c with
  | (d, none) => (ds ++ [d], none)
  | (_, some e) => (ds, some e)

/-- The path `tax_details>tax_detail`: inside a `tax_details` child every `tax_detail`
element is appended, anything else is skipped. -/
def unmarshalTaxDetails (sc : Scalars) (ds : List TaxDetail) (c : Node) :
    List TaxDetail × Option Error :=
  unmarshalChildren
    (fun acc c2 => if c2.name = "tax_detail" then appendTaxDetail sc acc c2 else (acc, none))
    c.children ds

/-- The anonymous struct `v` of `Adjustment.UnmarshalXML`: the read model. -/
structure AdjustmentRead where
  AccountCode : hrefString := ""
  InvoiceNumber : hrefInt := 0
  UUID : String := ""
  State : String := ""
  Description : String := ""
  AccountingCode : String := ""
  ProductCode : String := ""
  Origin : String := ""
  UnitAmountInCents : Int := 0
  Quantity : Int := 0
  OriginalAdjustmentUUID : String := ""
  DiscountInCents : Int := 0
  TaxInCents : Int := 0
  TotalInCents : Int := 0
  Currency : String := ""
  Taxable : NullBool := none
  TaxCode : String := ""
  TaxType : String := ""
  TaxRegion : String := ""
  TaxRate : Float64 := ⟨0⟩
  TaxExempt : NullBool := none
  TaxDetails : List TaxDetail := []
  StartDate : NullTime := none
  EndDate : NullTime := none
  CreatedAt : NullTime := none
deriving DecidableEq, Repr

/-- Field matcher of the decoder for the read model: the child is decoded into the
field whose tag carries its name; a child matching no field is skipped. -/
def AdjustmentRead.unmarshalPath (sc : Scalars) (v : AdjustmentRead) (c : Node) :
    AdjustmentRead × Option Error :=
  if c.name = "account" then
    let r := hrefString.UnmarshalXML v.AccountCode c; ({ v with AccountCode := r.1 }, r.2)
  else if c.name = "invoice" then
    let r := hrefInt.UnmarshalXML v.InvoiceNumber c; ({ v with InvoiceNumber := r.1 }, r.2)
  else if c.name = "uuid" then
    let r := unmarshalString v.UUID c; ({ v with UUID := r.1 }, r.2)
  else if c.name = "state" then
    let r := unmarshalString v.State c; ({ v with State := r.1 }, r.2)
  else if c.name = "description" then
    let r := unmarshalString v.Description c; ({ v with Description := r.1 }, r.2)
  else if c.name = "accounting_code" then
    let r := unmarshalString v.AccountingCode c; ({ v with AccountingCode := r.1 }, r.2)
  else if c.name = "product_code" then
    let r := unmarshalString v.ProductCode c; ({ v with ProductCode := r.1 }, r.2)
  else if c.name = "origin" then
    let r := unmarshalString v.Origin c; ({ v with Origin := r.1 }, r.2)
  else if c.name = "unit_amount_in_cents" then
    let r := unmarshalInt v.UnitAmountInCents c; ({ v with UnitAmountInCents := r.1 }, r.2)
  else if c.name = "quantity" then
    let r := unmarshalInt v.Quantity c; ({ v with Quantity := r.1 }, r.2)
  else if c.name = "original_adjustment_uuid" then
    let r := unmarshalString v.OriginalAdjustmentUUID c
    ({ v with OriginalAdjustmentUUID := r.1 }, r.2)
  else if c.name = "discount_in_cents" then
    let r := unmarshalInt v.DiscountInCents c; ({ v with DiscountInCents := r.1 }, r.2)
  else if c.name = "tax_in_cents" then
    let r := unmarshalInt v.TaxInCents c; ({ v with TaxInCents := r.1 }, r.2)
  else if c.name = "total_in_cents" then
    let r := unmarshalInt v.TotalInCents c; ({ v with TotalInCents := r.1 }, r.2)
  else if c.name = "currency" then
    let r := unmarshalString v.Currency c; ({ v with Currency := r.1 }, r.2)
  else if c.name = "taxable" then
    let r := NullBool.UnmarshalXML v.Taxable c; ({ v with Taxable := r.1 }, r.2)
  else if c.name = "tax_code" then
    let r := unmarshalString v.TaxCode c; ({ v with TaxCode := r.1 }, r.2)
  else if c.name = "tax_type" then
    let r := unmarshalString v.TaxType c; ({ v with TaxType := r.1 }, r.2)
  else if c.name = "tax_region" then
    let r := unmarshalString v.TaxRegion c; ({ v with TaxRegion := r.1 }, r.2)
  else if c.name = "tax_rate" then
    let r := unmarshalFloat sc v.TaxRate c; ({ v with TaxRate := r.1 }, r.2)
  else if c.name = "tax_exempt" then
    let r := NullBool.UnmarshalXML v.TaxExempt c; ({ v with TaxExempt := r.1 }, r.2)
  else if c.name = "tax_details" then
    let r := unmarshalTaxDetails sc v.TaxDetails c; ({ v with TaxDetails := r.1 }, r.2)
  else if c.name = "start_date" then
    let r := NullTime.UnmarshalXML sc v.StartDate c; ({ v with StartDate := r.1 }, r.2)
  else if c.name = "end_date" then
    let r := NullTime.UnmarshalXML sc v.EndDate c; ({ v with EndDate := r.1 }, r.2)
  else if c.name = "created_at" then
    let r := NullTime.UnmarshalXML sc v.CreatedAt c; ({ v with CreatedAt := r.1 }, r.2)
  else (v, none)

/-- The call `d.DecodeElement(&v, &start)` on a zero read model: the start element must
be named `adjustment` (the `XMLName` tag), then the children are decoded in order. -/
def AdjustmentRead.DecodeElement (sc : Scalars) (start : Node) : AdjustmentRead × Option Error :=
  if start.name = "adjustment" then
    unmarshalChildren (AdjustmentRead.unmarshalPath sc) start.children {}
  else ({}, some .UnmarshalError)

/-- UnmarshalXML decodes the read model and, when that succeeded, assigns a new
Adjustment built from it to the receiver `a`.  Returns the receiver after the call
and the error. -/
def Adjustment.UnmarshalXML (sc : Scalars) (a : Adjustment) (start : Node) :
    Adjustment × Option Error :=
  match AdjustmentRead.DecodeElement sc start with
  | (_, some err) => (a, some err)
  | (v, none) =>
    ({ AccountCode := v.AccountCode
       InvoiceNumber := v.InvoiceNumber
       UUID := v.UUID
       State := v.State
       Description := v.Description
       AccountingCode := v.AccountingCode
       ProductCode := v.ProductCode
       Origin := v.Origin
       UnitAmountInCents := v.UnitAmountInCents
       Quantity := v.Quantity
       OriginalAdjustmentUUID := v.OriginalAdjustmentUUID
       DiscountInCents := v.DiscountInCents
       TaxInCents := v.TaxInCents
       TotalInCents := v.TotalInCents
       Currency := v.Currency
       Taxable := v.Taxable
       TaxCode := v.TaxCode
       TaxType := v.TaxType
       TaxRegion := v.TaxRegion
       TaxRate := v.TaxRate
       TaxExempt := v.TaxExempt
       TaxDetails := v.TaxDetails
       StartDate := v.StartDate
       EndDate := v.EndDate
       CreatedAt := v.CreatedAt }, none)

/-! ## The shared client -/

/-- Query parameters of a request (`Params`). -/
abbrev Params := List (String × String)

/-- The request `newRequest` hands back (`*http.Request`). -/
structure Request where
  Method : String
  URL : String
  Body : Option Node
deriving Repr

/-- The provider's answer (`*Response`): status code and, when the body is an XML
document, its root element. -/
structure Response where
  StatusCode : Nat
  Body : Option Node
deriving Repr

/-- A call made on the shared client, as the client records it. -/
inductive Call where
  | newRequest (method : String) (action : String) (params : Params) (body : Option Node)
  | do_ (req : Request)
deriving Repr

/-- The shared client every service points to (`*Client`), as state.  `requestFor`
is what `newRequest`, which is not in the sources at hand, returns for a method, an
action (the path below the base URL, without the leading slash), parameters and the
element the body encodes to: a request or an error.  `roundTrip` is the HTTP
transport, an external collaborator: `none` is a connection failure.  `log` holds
the calls made on the client so far, oldest first. -/
structure Client where
  requestFor : String → String → Params → Option Node → Except Error Request
  roundTrip : Request → Option Response
  log : List Call := []

/-- The call `c.newRequest(method, action, params, body)`: the client records it and
answers with `requestFor`.  Returns the client after the call and the result. -/
def Client.newRequest (c : Client) (method action : String) (params : Params)
    (body : Option Node) : Client × Except Error Request :=
  ({ c with log := c.log ++ [.newRequest method action params body] },
    c.requestFor method action params body)

/-- Whether the call is a send (`Client.do`). -/
def Call.isSend : Call → Bool
  | .do_ _ => true
  | .newRequest _ _ _ _ => false

/-- Number of request/response round trips in a sequence of calls. -/
def sends (calls : List Call) : Nat := (calls.filter Call.isSend).length

/-- Spec section 6: how a non-2xx status is interpreted. -/
def statusError (status : Nat) : Error :=
  if status = 404 then .NotFound
  else if status = 422 then .ValidationError
  else if status = 429 then .RateLimited
  else .RequestError status

/-- Modelled from the spec: `Client.do`, the shared request/response pipeline, which
is not in the sources at hand.  The client records the call and makes one round trip
on the transport (spec 4.4, 5); a connection failure is a TransportError with no
response (spec 7); a 2xx status is success and the body is decoded into the
destination `v` with the destination's own decoding, unless the destination is nil
(`unmarshal = none`); any other status is mapped by `statusError` and leaves the
destination alone (spec 6).  Returns the client after the call, the response, the
destination after the call and the error. -/
def Client.do {α : Type} (c : Client) (req : Request)
    (unmarshal : Option (α → Node → α × Option Error)) (v : α) :
    Client × Option Response × α × Option Error :=
  let c1 : Client := { c with log := c.log ++ [.do_ req] }
  match c.roundTrip req with
  | none => (c1, none, v, some .TransportError)
  | some resp =>
    if 200 ≤ resp.StatusCode ∧ resp.StatusCode < 300 then
      match unmarshal with
      | none => (c1, some resp, v, none)
      | some u =>
        match resp.Body with
        | none => (c1, some resp, v, some .UnmarshalError)
        | some root => let r := u v root; (c1, some resp, r.1, r.2)
    else (c1, some resp, v, some (statusError resp.StatusCode))

/-! ## AdjustmentsService -/

/-- AdjustmentsService handles communication with the adjustments related methods
of the recurly API. -/
structure AdjustmentsService where
  client : Client

/-- The anonymous struct `a` of `AdjustmentsService.List`, root `adjustments`. -/
structure AdjustmentsList where
  Adjustments : List Adjustment := []
deriving DecidableEq, Repr

/-- Field matcher of the decoder for the list struct: every `adjustment` child is
decoded with `Adjustment.UnmarshalXML` into a new zero element appended to the slice;
when that decode fails the slice is cut back to its old length. -/
def AdjustmentsList.unmarshalPath (sc : Scalars) (v : AdjustmentsList) (c : Node) :
    AdjustmentsList × Option Error :=
  if c.name = "adjustment" then
    match Adjustment.UnmarshalXML sc {} c with
    | (x, none) => ({ v with Adjustments := v.Adjustments ++ [x] }, none)
    | (_, some e) => (v, some e)
  else (v, none)

/-- Decoding a document into the list struct, in place. -/
def AdjustmentsList.unmarshal (sc : Scalars) (v : AdjustmentsList) (start : Node) :
    AdjustmentsList × Option Error :=
  if start.name = "adjustments" then
    unmarshalChildren (AdjustmentsList.unmarshalPath sc) start.children v
  else (v, some .UnmarshalError)

/-- What a service method returning a sequence hands back, with the shared client as
the call left it. -/
structure ListResult where
  client : Client
  resp : Option Response
  adjustments : List Adjustment
  err : Option Error

/-- What a service method returning one entity hands back (`nil` entity is `none`),
with the shared client as the call left it. -/
structure EntityResult (α : Type) where
  client : Client
  resp : Option Response
  entity : Option α
  err : Option Error

/-- What a delete hands back, with the shared client as the call left it. -/
structure DeleteResult where
  client : Client
  resp : Option Response
  err : Option Error

/-- List retrieves all charges and credits issued for an account. -/
def AdjustmentsService.List (sc : Scalars) (s : AdjustmentsService) (accountCode : String)
    (params : Params) : ListResult :=
  let action := "accounts/" ++ accountCode ++ "/adjustments"
  let nr := s.client.newRequest "GET" action params none
  match nr.2 with
  | .error err => ⟨nr.1, none, [], some err⟩
  | .ok req =>
    let a : AdjustmentsList := {}
    let r := nr.1.do req (some (AdjustmentsList.unmarshal sc)) a
    ⟨r.1, r.2.1, r.2.2.1.Adjustments, r.2.2.2⟩

/-- Get returns information about a single adjustment. -/
def AdjustmentsService.Get (sc : Scalars) (s : AdjustmentsService) (uuid : String) :
    EntityResult Adjustment :=
  let action := "adjustments/" ++ uuid
  let nr := s.client.newRequest "GET" action [] none
  match nr.2 with
  | .error err => ⟨nr.1, none, none, some err⟩
  | .ok req =>
    let dst : Adjustment := {}
    let r := nr.1.do req (some (Adjustment.UnmarshalXML sc)) dst
    ⟨r.1, r.2.1, some r.2.2.1, r.2.2.2⟩

/-- Create creates a one-time charge on an account. -/
def AdjustmentsService.Create (sc : Scalars) (s : AdjustmentsService) (accountCode : String)
    (a : Adjustment) : EntityResult Adjustment :=
  let action := "accounts/" ++ accountCode ++ "/adjustments"
  let nr := s.client.newRequest "POST" action [] (some a.MarshalXML)
  match nr.2 with
  | .error err => ⟨nr.1, none, none, some err⟩
  | .ok req =>
    let dst : Adjustment := {}
    let r := nr.1.do req (some (Adjustment.UnmarshalXML sc)) dst
    ⟨r.1, r.2.1, some r.2.2.1, r.2.2.2⟩

/-- Delete removes a non-invoiced adjustment from an account. -/
def AdjustmentsService.Delete (s : AdjustmentsService) (uuid : String) : DeleteResult :=
  let action := "adjustments/" ++ uuid
  let nr := s.client.newRequest "DELETE" action [] none
  match nr.2 with
  | .error err => ⟨nr.1, none, some err⟩
  | .ok req =>
    let r := nr.1.do req (none : Option (Unit → Node → Unit × Option Error)) ()
    ⟨r.1, r.2.1, r.2.2.2⟩

/-! ## Redemptions (redemptions.go) -/

/-- RedemptionsService handles communication with the coupon redemption related
methods of the recurly API. -/
structure RedemptionsService where
  client : Client

/-- Redemption holds redeemed coupons for an account or invoice. -/
structure Redemption where
  CouponCode : String := ""
  AccountCode : String := ""
  SingleUse : NullBool := none
  TotalDiscountedInCents : Int := 0
  Currency : String := ""
  State : String := ""
  CreatedAt : NullTime := none
deriving DecidableEq, Repr

/-- The anonymous struct `v` of `Redemption.UnmarshalXML`: the read model. -/
structure RedemptionRead where
  CouponCode : hrefString := ""
  AccountCode : hrefString := ""
  SingleUse : NullBool := none
  TotalDiscountedInCents : Int := 0
  Currency : String := ""
  State : String := ""
  CreatedAt : NullTime := none
deriving DecidableEq, Repr

/-- Field matcher of the decoder for the redemption read model. -/
def RedemptionRead.unmarshalPath (sc : Scalars) (v : RedemptionRead) (c : Node) :
    RedemptionRead × Option Error :=
  if c.name = "coupon" then
    let r := hrefString.UnmarshalXML v.CouponCode c; ({ v with CouponCode := r.1 }, r.2)
  else if c.name = "account" then
    let r := hrefString.UnmarshalXML v.AccountCode c; ({ v with AccountCode := r.1 }, r.2)
  else if c.name = "single_use" then
    let r := NullBool.UnmarshalXML v.SingleUse c; ({ v with SingleUse := r.1 }, r.2)
  else if c.name = "total_discounted_in_cents" then
    let r := unmarshalInt v.TotalDiscountedInCents c
    ({ v with TotalDiscountedInCents := r.1 }, r.2)
  else if c.name = "currency" then
    let r := unmarshalString v.Currency c; ({ v with Currency := r.1 }, r.2)
  else if c.name = "state" then
    let r := unmarshalString v.State c; ({ v with State := r.1 }, r.2)
  else if c.name = "created_at" then
    let r := NullTime.UnmarshalXML sc v.CreatedAt c; ({ v with CreatedAt := r.1 }, r.2)
  else (v, none)

/-- The call `d.DecodeElement(&v, &start)` on a zero read model: the start element must
be named `redemption`, then the children are decoded in order. -/
def RedemptionRead.DecodeElement (sc : Scalars) (start : Node) : RedemptionRead × Option Error :=
  if start.name = "redemption" then
    unmarshalChildren (RedemptionRead.unmarshalPath sc) start.children {}
  else ({}, some .UnmarshalError)

/-- UnmarshalXML unmarshals a coupon redemption object; mainly converts href links
for coupons and accounts to CouponCode and AccountCode.  Returns the receiver after
the call and the error. -/
def Redemption.UnmarshalXML (sc : Scalars) (r : Redemption) (start : Node) :
    Redemption × Option Error :=
  match RedemptionRead.DecodeElement sc start with
  | (_, some err) => (r, some err)
  | (v, none) =>
    ({ CouponCode := v.CouponCode
       AccountCode := v.AccountCode
       SingleUse := v.SingleUse
       TotalDiscountedInCents := v.TotalDiscountedInCents
       Currency := v.Currency
       State := v.State
       CreatedAt := v.CreatedAt }, none)

/-- The anonymous struct `data` of `RedemptionsService.Redeem`. -/
structure RedeemData where
  AccountCode : String
  Currency : String
deriving DecidableEq, Repr

/-- The element the encoder writes for `data`: root `redemption`, then `account_code`
and `currency`, neither tagged `omitempty`. -/
def RedeemData.encode (data : RedeemData) : Node :=
  .elem "redemption" [] [textElem "account_code" data.AccountCode, textElem "currency" data.Currency]

/-- GetForAccount looks up information about the active coupon redemption on an
account. -/
def RedemptionsService.GetForAccount (sc : Scalars) (s : RedemptionsService)
    (accountCode : String) : EntityResult Redemption :=
  let action := "accounts/" ++ accountCode ++ "/redemption"
  let nr := s.client.newRequest "GET" action [] none
  match nr.2 with
  | .error err => ⟨nr.1, none, none, some err⟩
  | .ok req =>
    let dst : Redemption := {}
    let r := nr.1.do req (some (Redemption.UnmarshalXML sc)) dst
    ⟨r.1, r.2.1, some r.2.2.1, r.2.2.2⟩

/-- GetForInvoice looks up information about a coupon redemption applied to an
invoice. -/
def RedemptionsService.GetForInvoice (sc : Scalars) (s : RedemptionsService)
    (invoiceNumber : String) : EntityResult Redemption :=
  let action := "invoices/" ++ invoiceNumber ++ "/redemption"
  let nr := s.client.newRequest "GET" action [] none
  match nr.2 with
  | .error err => ⟨nr.1, none, none, some err⟩
  | .ok req =>
    let dst : Redemption := {}
    let r := nr.1.do req (some (Redemption.UnmarshalXML sc)) dst
    ⟨r.1, r.2.1, some r.2.2.1, r.2.2.2⟩

/-- Redeem will redeem a coupon before or after a subscription. -/
def RedemptionsService.Redeem (sc : Scalars) (s : RedemptionsService) (code : String)
    (accountCode : String) (currency : String) : EntityResult Redemption :=
  let action := "coupons/" ++ code ++ "/redeem"
  let data : RedeemData := { AccountCode := accountCode, Currency := currency }
  let nr := s.client.newRequest "POST" action [] (some data.encode)
  match nr.2 with
  | .error err => ⟨nr.1, none, none, some err⟩
  | .ok req =>
    let dst : Redemption := {}
    let r := nr.1.do req (some (Redemption.UnmarshalXML sc)) dst
    ⟨r.1, r.2.1, some r.2.2.1, r.2.2.2⟩

/-- Delete removes a coupon from an account. -/
def RedemptionsService.Delete (s : RedemptionsService) (accountCode : String) : DeleteResult :=
  let action := "accounts/" ++ accountCode ++ "/redemption"
  let nr := s.client.newRequest "DELETE" action [] none
  match nr.2 with
  | .error err => ⟨nr.1, none, some err⟩
  | .ok req =>
    let r := nr.1.do req (none : Option (Unit → Node → Unit × Option Error)) ()
    ⟨r.1, r.2.1, r.2.2.2⟩

/-! ## Webhook dispatcher (spec 4.5) -/

/-- Modelled from the spec: a raw webhook payload (spec 6: a raw XML byte stream),
the input of `HandleWebhook`, which is not in the sources at hand: either a
well-formed document, or a stream whose root start tag can be read but which breaks
off before the document is complete. -/
inductive Payload where
  | document (root : Node)
  | truncated (rootName : String)
deriving Repr

/-- Modelled from the spec: the local name of the root element, as peeked from the
raw payload without consuming it (spec 4.5, step 1). -/
def Payload.rootName : Payload → String
  | .document root => root.name
  | .truncated rootName => rootName

/-- Modelled from the spec: the metadata every notification carries about the root
element that produced it (`webhook{XMLName}` in the test), not in the sources at
hand. -/
structure webhook where
  XMLName : String := ""
deriving DecidableEq, Repr

/-- Modelled from the spec: `Type()`, the type-name of a notification: the local
name of its root element. -/
def webhook.Type (w : webhook) : String := w.XMLName

/-- Modelled from the spec: the Account entity as far as the test shows it: the
string fields of its expected value (Code, Email, FirstName, LastName) and of the
two `nil` elements of the sample payload; its declaration is not in the sources at
hand. -/
structure Account where
  Code : String := ""
  Username : String := ""
  Email : String := ""
  FirstName : String := ""
  LastName : String := ""
  CompanyName : String := ""
deriving DecidableEq, Repr

/-- Modelled from the spec: field matcher of the decoder for an Account, by the
element names of the sample payload; any other element is skipped. -/
def Account.unmarshalPath (v : Account) (c : Node) : Account × Option Error :=
  if c.name = "account_code" then
    let r := unmarshalString v.Code c; ({ v with Code := r.1 }, r.2)
  else if c.name = "username" then
    let r := unmarshalString v.Username c; ({ v with Username := r.1 }, r.2)
  else if c.name = "email" then
    let r := unmarshalString v.Email c; ({ v with Email := r.1 }, r.2)
  else if c.name = "first_name" then
    let r := unmarshalString v.FirstName c; ({ v with FirstName := r.1 }, r.2)
  else if c.name = "last_name" then
    let r := unmarshalString v.LastName c; ({ v with LastName := r.1 }, r.2)
  else if c.name = "company_name" then
    let r := unmarshalString v.CompanyName c; ({ v with CompanyName := r.1 }, r.2)
  else (v, none)

/-- Modelled from the spec: the account-created notification structure
(`AccountNotification` in the test): the root metadata and one Account. -/
structure AccountNotification where
  webhook : webhook := {}
  Account : Account := {}
deriving DecidableEq, Repr

/-- Modelled from the spec: field matcher of the decoder for an AccountNotification:
an `account` child is decoded into the Account, in place. -/
def AccountNotification.unmarshalPath (v : AccountNotification) (c : Node) :
    AccountNotification × Option Error :=
  if c.name = "account" then
    let r := unmarshalChildren Account.unmarshalPath c.children v.Account
    ({ v with Account := r.1 }, r.2)
  else (v, none)

/-- Modelled from the spec: the Invoice entity an invoice notification wraps.  Its
declaration is not in the sources at hand and the spec does not describe it: its
zero value and its decoding are taken as given. -/
structure InvoiceCodec (ι : Type) where
  zero : ι
  UnmarshalXML : ι → Node → ι × Option Error

/-- Modelled from the spec: the invoice-created notification structure
(`InvoiceNotification` in the test): the root metadata, the Account and the Invoice
of the `account` and `invoice` children of the sample payload. -/
structure InvoiceNotification (ι : Type) where
  webhook : webhook := {}
  Account : Account := {}
  Invoice : ι

/-- Modelled from the spec: field matcher of the decoder for an InvoiceNotification:
an `account` child is decoded into the Account and an `invoice` child into the
Invoice, in place. -/
def InvoiceNotification.unmarshalPath {ι : Type} (inv : InvoiceCodec ι)
    (v : InvoiceNotification ι) (c : Node) : InvoiceNotification ι × Option Error :=
  if c.name = "account" then
    let r := unmarshalChildren Account.unmarshalPath c.children v.Account
    ({ v with Account := r.1 }, r.2)
  else if c.name = "invoice" then
    let r := inv.UnmarshalXML v.Invoice c
    ({ v with Invoice := r.1 }, r.2)
  else (v, none)

/-- Modelled from the spec: the closed set of notification variants, as far as the
test names them; exactly one is live per payload (spec 3). -/
inductive Notification (ι : Type) where
  | AccountNotification (n : AccountNotification)
  | InvoiceNotification (n : InvoiceNotification ι)

/-- Modelled from the spec: `Type()` of a notification, whatever its variant. -/
def Notification.Type {ι : Type} : Notification ι → String
  | .AccountNotification n => n.webhook.Type
  | .InvoiceNotification n => n.webhook.Type

/-- Modelled from the spec: the Account a notification wraps. -/
def Notification.Account {ι : Type} : Notification ι → Account
  | .AccountNotification n => n.Account
  | .InvoiceNotification n => n.Account

/-- Element names of the seven caller-supplied fields of the write model. -/
def writeNames : List String :=
  ["description", "accounting_code", "unit_amount_in_cents", "quantity", "currency",
   "tax_code", "tax_exempt"]

/-- Element names of the fields only the read model has (server-assigned). -/
def readOnlyNames : List String :=
  ["account", "invoice", "uuid", "state", "product_code", "origin",
   "original_adjustment_uuid", "discount_in_cents", "tax_in_cents", "total_in_cents",
   "taxable", "tax_type", "tax_region", "tax_rate", "tax_details", "start_date",
   "end_date", "created_at"]

/-- Scalar parsers that accept nothing; enough wherever no float or timestamp is
decoded. -/
def noScalars : Scalars := ⟨fun _ => none, fun _ => none⟩

/-- An adjustment as a caller would build it for Create. -/
def sampleCharge : Adjustment :=
  { Description := "Charge for extra bandwidth"
    AccountingCode := "bandwidth"
    UnitAmountInCents := 2000
    Quantity := 1
    Currency := "USD"
    TaxCode := "digital"
    TaxExempt := some false }

/-- The same adjustment after a round trip, with server-assigned fields filled in. -/
def sampleInvoiced : Adjustment :=
  { sampleCharge with
    AccountCode := "100"
    InvoiceNumber := 1108
    UUID := "626db120a84102b1809909071c701c60"
    State := "invoiced"
    DiscountInCents := 0
    TaxInCents := 180
    TotalInCents := 2180
    TaxDetails := [{ XMLName := "tax_detail", Name := "california", Type_ := "state",
                     TaxInCents := 180 }] }

/-- An adjustment whose description holds a vertical tab (U+000B), a character XML
cannot carry. -/
def verticalTabCharge : Adjustment :=
  { Description := "a\x0bb", UnitAmountInCents := 100, Currency := "USD" }

/-- Whether a child of the `adjustments` root is an `adjustment` element. -/
def isAdjustmentChild (c : Node) : Bool := c.isElem && decide (c.name = "adjustment")

/-- Whether `Adjustment.UnmarshalXML` decodes the element into a zero value without
error. -/
def decodes (sc : Scalars) (d : Node) : Bool := (Adjustment.UnmarshalXML sc {} d).2.isNone

/-- The error of the first element of the list that `Adjustment.UnmarshalXML` fails
to decode into a zero value, if any. -/
def firstFailure (sc : Scalars) : List Node → Option Error
  | [] => none
  | d :: ds =>
    match (Adjustment.UnmarshalXML sc {} d).2 with
    | some e => some e
    | none => firstFailure sc ds

/-- Whether a call on the client returned a value rather than an error. -/
def succeeded {ε α : Type} : Except ε α → Bool
  | .ok _ => true
  | .error _ => false

/-- Method and path below the base URL of every request a sequence of calls asked
`newRequest` to build; the path is the action after the slash that follows the base
URL. -/
def built : List Call → List (String × String)
  | [] => []
  | .newRequest method action _ _ :: rest => (method, "/" ++ action) :: built rest
  | .do_ _ :: rest => built rest

/-- Bodies handed to `newRequest` in a sequence of calls. -/
def bodies : List Call → List (Option Node)
  | [] => []
  | .newRequest _ _ _ body :: rest => body :: bodies rest
  | .do_ _ :: rest => bodies rest

/-- Bodies of the requests as sent: what `newRequest` was handed, written by
`xml.Encoder` and read back by a tokenizer. -/
def wireBodies (calls : List Call) : List (Option Node) :=
  (bodies calls).map (Option.map Node.wire)

/-- Requests handed to `Client.do` in a sequence of calls. -/
def sent : List Call → List Request
  | [] => []
  | .newRequest _ _ _ _ :: rest => sent rest
  | .do_ req :: rest => req :: sent rest

/-- One call of a service method, seen on the shared client: `before` and `after`
are the client before and after the call, `asked` is what `newRequest` returned to
the method and `err` the error the method returned.  When `newRequest` returned a
request, exactly that request was sent, once; when it returned an error, nothing was
sent and the method returned that error. -/
def oneRoundTrip (before after : Client) (asked : Except Error Request) (err : Option Error) :
    Prop :=
  sends after.log = sends before.log + (if succeeded asked then 1 else 0) ∧
    (∀ req, asked = .ok req → sent after.log = sent before.log ++ [req]) ∧
    (∀ e, asked = .error e → sent after.log = sent before.log ∧ err = some e)

/-- An ASCII control character, which `net/url` refuses in a URL. -/
def isControl (c : Char) : Bool := c.toNat < 0x20 || c.toNat = 0x7F

/-- A client for the examples, with no calls made on it yet: `newRequest` refuses an
action holding an ASCII control character, as a builder on top of `http.NewRequest`
does, and otherwise builds the request below a base URL; the transport answers every
request with `answer`. -/
def sampleClient (answer : Option Response) : Client :=
  { requestFor := fun method action _ body =>
      if action.data.any isControl then .error .BuildError
      else .ok ⟨method, "https://api.recurly.com/v2/" ++ action, body⟩
    roundTrip := fun _ => answer
    log := [] }

/-- A 200 response listing two adjustments, the second with a quantity that is not
a number. -/
def secondAdjustmentMalformed : Response :=
  { StatusCode := 200
    Body := some (.elem "adjustments" [] [
      .elem "adjustment" [] [
        .elem "uuid" [] [.text "626db120a84102b1809909071c701c60"],
        .elem "quantity" [] [.text "1"]],
      .elem "adjustment" [] [
        .elem "uuid" [] [.text "945a4cb9afd64300b97b138407a51aef"],
        .elem "quantity" [] [.text "one"]]]) }

/-- A 200 response with an empty `<adjustments/>` body. -/
def emptyAdjustments : Response :=
  { StatusCode := 200, Body := some (.elem "adjustments" [] []) }

/-- A 200 response listing two well-formed adjustments. -/
def twoAdjustments : Response :=
  { StatusCode := 200
    Body := some (.elem "adjustments" [] [
      .text "\n  ",
      .elem "adjustment" [] [
        .elem "account" [⟨"href", "https://api.recurly.com/v2/accounts/100"⟩] [],
        .elem "uuid" [] [.text "626db120a84102b1809909071c701c60"],
        .elem "quantity" [] [.text "1"]],
      .text "\n  ",
      .elem "adjustment" [] [
        .elem "account" [⟨"href", "https://api.recurly.com/v2/accounts/100"⟩] [],
        .elem "uuid" [] [.text "945a4cb9afd64300b97b138407a51aef"],
        .elem "quantity" [] [.text "2"]],
      .text "\n"]) }

/-- A 200 response carrying one redemption. -/
def redemptionAnswer : Response :=
  { StatusCode := 200
    Body := some (.elem "redemption" [] [
      .elem "coupon" [⟨"href", "https://api.recurly.com/v2/coupons/special"⟩] [],
      .elem "account" [⟨"href", "https://api.recurly.com/v2/accounts/100"⟩] [],
      .elem "single_use" [] [.text "true"],
      .elem "total_discounted_in_cents" [] [.text "500"],
      .elem "currency" [] [.text "USD"],
      .elem "state" [] [.text "active"]]) }

/-- The element each field of an Adjustment is read from (the tags of the read
model), with the statement that the field holds its zero value. -/
def Adjustment.zeroWhenAbsent : List (String × (Adjustment → Prop)) :=
  [("account", fun a => a.AccountCode = ""),
   ("invoice", fun a => a.InvoiceNumber = 0),
   ("uuid", fun a => a.UUID = ""),
   ("state", fun a => a.State = ""),
   ("description", fun a => a.Description = ""),
   ("accounting_code", fun a => a.AccountingCode = ""),
   ("product_code", fun a => a.ProductCode = ""),
   ("origin", fun a => a.Origin = ""),
   ("unit_amount_in_cents", fun a => a.UnitAmountInCents = 0),
   ("quantity", fun a => a.Quantity = 0),
   ("original_adjustment_uuid", fun a => a.OriginalAdjustmentUUID = ""),
   ("discount_in_cents", fun a => a.DiscountInCents = 0),
   ("tax_in_cents", fun a => a.TaxInCents = 0),
   ("total_in_cents", fun a => a.TotalInCents = 0),
   ("currency", fun a => a.Currency = ""),
   ("taxable", fun a => a.Taxable = none),
   ("tax_code", fun a => a.TaxCode = ""),
   ("tax_type", fun a => a.TaxType = ""),
   ("tax_region", fun a => a.TaxRegion = ""),
   ("tax_rate", fun a => a.TaxRate = ⟨0⟩),
   ("tax_exempt", fun a => a.TaxExempt = none),
   ("tax_details", fun a => a.TaxDetails = []),
   ("start_date", fun a => a.StartDate = none),
   ("end_date", fun a => a.EndDate = none),
   ("created_at", fun a => a.CreatedAt = none)]

/-- The element each field of a Redemption is read from (the tags of the read
model), with the statement that the field holds its zero value. -/
def Redemption.zeroWhenAbsent : List (String × (Redemption → Prop)) :=
  [("coupon", fun r => r.CouponCode = ""),
   ("account", fun r => r.AccountCode = ""),
   ("single_use", fun r => r.SingleUse = none),
   ("total_discounted_in_cents", fun r => r.TotalDiscountedInCents = 0),
   ("currency", fun r => r.Currency = ""),
   ("state", fun r => r.State = ""),
   ("created_at", fun r => r.CreatedAt = none)]

/-- A populated redemption, as a receiver holding stale values. -/
def sampleRedemption : Redemption :=
  { CouponCode := "special", AccountCode := "100", SingleUse := some true,
    TotalDiscountedInCents := 500, Currency := "USD", State := "active" }

/-- The `account` element of the spec's href example. -/
def sampleAccountLink : Node :=
  .elem "account" [⟨"href", "https://api.example.com/accounts/abc123"⟩] []

/-- An `adjustment` element as the provider returns it, with href-linked account and
invoice. -/
def sampleAdjustmentElement : Node :=
  .elem "adjustment" [⟨"href", "https://api.example.com/adjustments/626db120"⟩, ⟨"type", "charge"⟩] [
    sampleAccountLink,
    .elem "invoice" [⟨"href", "https://api.example.com/invoices/1108"⟩] [],
    .elem "uuid" [] [.text "626db120"],
    .elem "unit_amount_in_cents" [⟨"type", "integer"⟩] [.text "5000"],
    .elem "taxable" [⟨"type", "boolean"⟩] [.text "false"],
    .elem "start_date" [⟨"nil", "true"⟩] []]

/-- A `redemption` element as the provider returns it. -/
def sampleRedemptionElement : Node :=
  .elem "redemption" [] [
    .elem "coupon" [⟨"href", "https://api.example.com/coupons/special"⟩] [],
    sampleAccountLink,
    .elem "single_use" [⟨"type", "boolean"⟩] [.text "true"],
    .elem "total_discounted_in_cents" [⟨"type", "integer"⟩] [.text "500"],
    .elem "state" [] [.text "active"]]

/-! # Theorems -/

/-! ## Facts about strconv and strings -/

theorem digitVal_digitChar (d : Nat) (h : d < 10) : digitVal (digitChar d) = some d := by
  interval_cases d <;> decide

theorem parseDigits_formatUintAux (fuel : Nat) :
    ∀ (n : Nat) (acc : List Char), n < fuel →
      parseDigits (formatUintAux fuel n acc) 0 = parseDigits acc n := by
  induction fuel with
  | zero => intro n acc h; omega
  | succ f ih =>
    intro n acc h
    unfold formatUintAux
    split
    · rename_i hlt
      simp [parseDigits, digitVal_digitChar n hlt]
    · rename_i hge
      have hdiv : n / 10 < f := by omega
      rw [ih (n / 10) _ hdiv]
      have hmod : n % 10 < 10 := Nat.mod_lt _ (by decide)
      simp only [parseDigits, digitVal_digitChar _ hmod]
      congr 1
      omega

theorem formatUintAux_chars (fuel : Nat) :
    ∀ (n : Nat) (acc : List Char), (∀ c ∈ acc, isNumChar c) →
      ∀ c ∈ formatUintAux fuel n acc, isNumChar c := by
  induction fuel with
  | zero => intro n acc h; simpa [formatUintAux] using h
  | succ f ih =>
    intro n acc h
    unfold formatUintAux
    split
    · rename_i hlt
      intro c hc
      rcases List.mem_cons.mp hc with rfl | hc
      · exact Or.inr ⟨n, hlt, rfl⟩
      · exact h c hc
    · apply ih
      intro c hc
      rcases List.mem_cons.mp hc with rfl | hc
      · exact Or.inr ⟨n % 10, Nat.mod_lt _ (by decide), rfl⟩
      · exact h c hc

theorem formatUintAux_ne_nil (fuel : Nat) :
    ∀ (n : Nat) (acc : List Char), (acc ≠ [] ∨ 0 < fuel) → formatUintAux fuel n acc ≠ [] := by
  induction fuel with
  | zero => intro n acc h; rcases h with h | h; · simpa [formatUintAux] using h
            · omega
  | succ f ih =>
    intro n acc _
    unfold formatUintAux
    split
    · simp
    · exact ih _ _ (Or.inl (by simp))

theorem formatUint_ne_nil (n : Nat) : formatUint n ≠ [] :=
  formatUintAux_ne_nil _ _ _ (Or.inr (Nat.succ_pos n))

theorem formatUint_chars (n : Nat) : ∀ c ∈ formatUint n, isNumChar c :=
  formatUintAux_chars _ _ _ (by simp)

theorem formatUint_digits (n : Nat) : ∀ c ∈ formatUint n, ∃ d, d < 10 ∧ c = digitChar d := by
  have key : ∀ (fuel n : Nat) (acc : List Char), (∀ c ∈ acc, ∃ d, d < 10 ∧ c = digitChar d) →
      ∀ c ∈ formatUintAux fuel n acc, ∃ d, d < 10 ∧ c = digitChar d := by
    intro fuel
    induction fuel with
    | zero => intro n acc h; simpa [formatUintAux] using h
    | succ f ih =>
      intro n acc h
      unfold formatUintAux
      split
      · rename_i hlt
        intro c hc
        rcases List.mem_cons.mp hc with rfl | hc
        · exact ⟨n, hlt, rfl⟩
        · exact h c hc
      · apply ih
        intro c hc
        rcases List.mem_cons.mp hc with rfl | hc
        · exact ⟨n % 10, Nat.mod_lt _ (by decide), rfl⟩
        · exact h c hc
  exact key _ _ _ (by simp)

theorem parseUint_formatUint (n : Nat) : parseUint (formatUint n) = some n := by
  have h := parseDigits_formatUintAux (n + 1) n [] (Nat.lt_succ_self n)
  have hne := formatUint_ne_nil n
  unfold parseUint
  cases hcs : formatUint n with
  | nil => exact absurd hcs hne
  | cons c cs =>
    simp only
    rw [← hcs]
    simpa [formatUint, parseDigits] using h

theorem digitChar_ne_sign (d : Nat) (h : d < 10) : digitChar d ≠ '+' ∧ digitChar d ≠ '-' := by
  interval_cases d <;> decide

theorem parseInt_formatInt (i : Int) (h : isInt64 i) : parseInt (formatInt i) = some i := by
  obtain ⟨hlo, hhi⟩ := h
  unfold formatInt
  by_cases hneg : i < 0
  · simp only [hneg, if_true]
    unfold parseInt
    simp only [parseUint_formatUint]
    have h1 : ¬ ('-' = '+') := by decide
    simp only [h1, if_false, if_true]
    have h2 : ¬ (i.natAbs > 2 ^ 63) := by omega
    simp only [h2, if_false, Int.ofNat_eq_coe]
    congr 1
    omega
  · simp only [hneg, if_false]
    unfold parseInt
    cases hcs : formatUint i.natAbs with
    | nil => exact absurd hcs (formatUint_ne_nil _)
    | cons c cs =>
      simp only
      have hc : c ∈ formatUint i.natAbs := by rw [hcs]; exact List.mem_cons_self _ _
      obtain ⟨d, hd, rfl⟩ := formatUint_digits _ c hc
      obtain ⟨hp, hm⟩ := digitChar_ne_sign d hd
      simp only [hp, hm, if_false]
      rw [← hcs, parseUint_formatUint]
      have h2 : ¬ (i.natAbs ≥ 2 ^ 63) := by omega
      simp only [h2, if_false, Int.ofNat_eq_coe]
      congr 1
      omega

theorem isNumChar_props (c : Char) (h : isNumChar c) :
    isSpace c = false ∧ isInCharacterRange c = true := by
  rcases h with rfl | ⟨d, hd, rfl⟩
  · decide
  · interval_cases d <;> decide

theorem formatInt_chars (i : Int) : ∀ c ∈ (formatInt i).data, isNumChar c := by
  unfold formatInt
  split
  · intro c hc
    rcases List.mem_cons.mp hc with rfl | hc
    · exact Or.inl rfl
    · exact formatUint_chars _ c hc
  · exact formatUint_chars _

theorem formatInt_ne_empty (i : Int) : formatInt i ≠ "" := by
  unfold formatInt
  split
  · intro h; simpa using congrArg String.data h
  · intro h
    have := congrArg String.data h
    exact formatUint_ne_nil _ this

theorem dropWhile_eq_self_of_all {α : Type} (p : α → Bool) (l : List α)
    (h : ∀ c ∈ l, p c = false) : l.dropWhile p = l := by
  cases l with
  | nil => rfl
  | cons a t => simp [List.dropWhile, h a (List.mem_cons_self _ _)]

theorem trimSpace_eq_self (s : String) (h : ∀ c ∈ s.data, isSpace c = false) :
    trimSpace s = s := by
  unfold trimSpace
  rw [dropWhile_eq_self_of_all _ _ h, dropWhile_eq_self_of_all, List.reverse_reverse]
  intro c hc
  exact h c (List.mem_reverse.mp hc)

theorem wireText_eq_self (s : String) (h : xmlSafe s) : wireText s = s := by
  unfold wireText
  have : s.data.map wireChar = s.data := by
    conv_rhs => rw [← List.map_id s.data]
    apply List.map_congr_left
    intro c hc
    simp [wireChar, h c hc]
  rw [this]

theorem xmlSafe_formatInt (i : Int) : xmlSafe (formatInt i) :=
  fun c hc => (isNumChar_props c (formatInt_chars i c hc)).2

theorem trimSpace_formatInt (i : Int) : trimSpace (formatInt i) = formatInt i :=
  trimSpace_eq_self _ (fun c hc => (isNumChar_props c (formatInt_chars i c hc)).1)

theorem name_textElem (name s : String) : (textElem name s).name = name := rfl

theorem isElem_textElem (name s : String) : (textElem name s).isElem = true := rfl

theorem chardata_textElem (name s : String) : (textElem name s).chardata = s := by
  unfold textElem Node.chardata Node.children
  by_cases h : s = ""
  · simp [h, chardataOf]
  · simp [h, chardataOf]

theorem wireText_eq_empty (s : String) : wireText s = "" ↔ s = "" := by
  rcases s with ⟨cs⟩
  cases cs with
  | nil => exact ⟨fun _ => rfl, fun _ => rfl⟩
  | cons c t =>
    constructor
    · intro h
      have := congrArg String.data h
      simp [wireText] at this
    · intro h
      have := congrArg String.data h
      simp at this

theorem wire_textElem (name s : String) :
    (textElem name s).wire = textElem name (wireText s) := by
  unfold textElem
  by_cases hs : s = ""
  · subst hs
    rfl
  · have hw : ¬ wireText s = "" := fun h => hs ((wireText_eq_empty s).mp h)
    simp [hs, hw, Node.wire, wireList]

theorem wireList_append (xs ys : List Node) : wireList (xs ++ ys) = wireList xs ++ wireList ys := by
  induction xs with
  | nil => simp [wireList]
  | cons x t ih => simp [wireList, ih]

theorem unmarshalChildren_append {σ : Type} (f : σ → Node → σ × Option Error)
    (xs ys : List Node) (v : σ) :
    unmarshalChildren f (xs ++ ys) v =
      match unmarshalChildren f xs v with
      | (v1, none) => unmarshalChildren f ys v1
      | (v1, some e) => (v1, some e) := by
  induction xs generalizing v with
  | nil => simp [unmarshalChildren]
  | cons x t ih =>
    simp only [List.cons_append, unmarshalChildren]
    by_cases hx : x.isElem = true
    · simp only [hx, if_true]
      rcases hfx : f v x with ⟨v1, _ | e⟩
      · exact ih v1
      · simp only
    · simp only [hx]
      exact ih v

theorem unmarshalString_textElem (old name s : String) :
    unmarshalString old (textElem name s) = (s, none) := by
  simp [unmarshalString, chardata_textElem]

theorem unmarshalInt_textElem (old : Int) (name : String) (i : Int) (h : isInt64 i) :
    unmarshalInt old (textElem name (formatInt i)) = (i, none) := by
  simp [unmarshalInt, chardata_textElem, formatInt_ne_empty, trimSpace_formatInt,
    parseInt_formatInt i h]

theorem unmarshalNullBool_textElem (old : NullBool) (name : String) (b : Bool) :
    NullBool.UnmarshalXML old (textElem name (formatBool b)) = (some b, none) := by
  cases b <;> rfl

theorem unmarshalChildren_textElem {σ : Type} (f : σ → Node → σ × Option Error)
    (name s : String) (rest : List Node) (v v1 : σ) (h : f v (textElem name s) = (v1, none)) :
    unmarshalChildren f (textElem name s :: rest) v = unmarshalChildren f rest v1 := by
  simp [unmarshalChildren, isElem_textElem, h]

theorem path_description (sc : Scalars) (v : AdjustmentRead) (s : String) :
    AdjustmentRead.unmarshalPath sc v (textElem "description" s) =
      ({ v with Description := s }, none) := by
  simp [AdjustmentRead.unmarshalPath, name_textElem, unmarshalString_textElem]

theorem path_accounting_code (sc : Scalars) (v : AdjustmentRead) (s : String) :
    AdjustmentRead.unmarshalPath sc v (textElem "accounting_code" s) =
      ({ v with AccountingCode := s }, none) := by
  simp [AdjustmentRead.unmarshalPath, name_textElem, unmarshalString_textElem]

theorem path_unit_amount_in_cents (sc : Scalars) (v : AdjustmentRead) (i : Int) (h : isInt64 i) :
    AdjustmentRead.unmarshalPath sc v (textElem "unit_amount_in_cents" (formatInt i)) =
      ({ v with UnitAmountInCents := i }, none) := by
  simp [AdjustmentRead.unmarshalPath, name_textElem, unmarshalInt_textElem _ _ i h]

theorem path_quantity (sc : Scalars) (v : AdjustmentRead) (i : Int) (h : isInt64 i) :
    AdjustmentRead.unmarshalPath sc v (textElem "quantity" (formatInt i)) =
      ({ v with Quantity := i }, none) := by
  simp [AdjustmentRead.unmarshalPath, name_textElem, unmarshalInt_textElem _ _ i h]

theorem path_currency (sc : Scalars) (v : AdjustmentRead) (s : String) :
    AdjustmentRead.unmarshalPath sc v (textElem "currency" s) =
      ({ v with Currency := s }, none) := by
  simp [AdjustmentRead.unmarshalPath, name_textElem, unmarshalString_textElem]

theorem path_tax_code (sc : Scalars) (v : AdjustmentRead) (s : String) :
    AdjustmentRead.unmarshalPath sc v (textElem "tax_code" s) =
      ({ v with TaxCode := s }, none) := by
  simp [AdjustmentRead.unmarshalPath, name_textElem, unmarshalString_textElem]

theorem path_tax_exempt (sc : Scalars) (v : AdjustmentRead) (b : Bool) :
    AdjustmentRead.unmarshalPath sc v (textElem "tax_exempt" (formatBool b)) =
      ({ v with TaxExempt := some b }, none) := by
  simp [AdjustmentRead.unmarshalPath, name_textElem, unmarshalNullBool_textElem]

theorem DecodeElement_encode (sc : Scalars) (w : AdjustmentWrite)
    (hu : isInt64 w.UnitAmountInCents) (hq : isInt64 w.Quantity) :
    AdjustmentRead.DecodeElement sc w.encode =
      ({ Description := w.Description
         AccountingCode := w.AccountingCode
         UnitAmountInCents := w.UnitAmountInCents
         Quantity := w.Quantity
         Currency := w.Currency
         TaxCode := w.TaxCode
         TaxExempt := w.TaxExempt }, none) := by
  rcases w with ⟨d, ac, u, q, cur, tc, te⟩
  simp only at hu hq
  have hname : (AdjustmentWrite.encode ⟨d, ac, u, q, cur, tc, te⟩).name = "adjustment" := rfl
  unfold AdjustmentRead.DecodeElement
  rw [if_pos hname]
  simp only [AdjustmentWrite.encode, Node.children, List.append_assoc, List.singleton_append]
  rcases eq_or_ne d "" with rfl | hd <;> rcases eq_or_ne ac "" with rfl | hac <;>
    rcases eq_or_ne q 0 with rfl | hq0 <;> rcases eq_or_ne tc "" with rfl | htc <;>
    rcases te with _ | b <;>
    simp only [omitemptyString, omitemptyInt, NullBool.MarshalXML, ne_eq, *,
      if_true, if_false, eq_self_iff_true, not_true_eq_false, not_false_eq_true, List.nil_append, List.singleton_append, List.cons_append] <;>
    (repeat first
      | rw [unmarshalChildren_textElem _ _ _ _ _ _ (path_description sc _ _)]; dsimp only
      | rw [unmarshalChildren_textElem _ _ _ _ _ _ (path_accounting_code sc _ _)]; dsimp only
      | rw [unmarshalChildren_textElem _ _ _ _ _ _ (path_unit_amount_in_cents sc _ _ hu)]; dsimp only
      | rw [unmarshalChildren_textElem _ _ _ _ _ _ (path_quantity sc _ _ hq)]; dsimp only
      | rw [unmarshalChildren_textElem _ _ _ _ _ _ (path_currency sc _ _)]; dsimp only
      | rw [unmarshalChildren_textElem _ _ _ _ _ _ (path_tax_code sc _ _)]; dsimp only
      | rw [unmarshalChildren_textElem _ _ _ _ _ _ (path_tax_exempt sc _ _)]; dsimp only) <;>
    rfl

theorem wire_elem (n : String) (as : List Attr) (cs : List Node) :
    (Node.elem n as cs).wire =
      .elem n (as.map fun a => ⟨a.Name, wireText a.Value⟩) (wireList cs) := by
  simp [Node.wire]

theorem wireList_singleton (c : Node) : wireList [c] = [c.wire] := by
  simp [wireList]

theorem wireList_omitemptyString (name s : String) :
    wireList (omitemptyString name s) = omitemptyString name (wireText s) := by
  unfold omitemptyString
  by_cases hs : s = ""
  · subst hs
    rfl
  · have hw : ¬ wireText s = "" := fun h => hs ((wireText_eq_empty s).mp h)
    simp [hs, hw, wireList, wire_textElem]

theorem wireList_omitemptyInt (name : String) (i : Int) :
    wireList (omitemptyInt name i) = omitemptyInt name i := by
  unfold omitemptyInt
  split
  · rfl
  · simp [wireList, wire_textElem, wireText_eq_self _ (xmlSafe_formatInt i)]

theorem wireList_NullBool (name : String) (n : NullBool) :
    wireList (NullBool.MarshalXML n name) = NullBool.MarshalXML n name := by
  rcases n with _ | b
  · rfl
  · cases b <;> rfl

theorem wire_encode (w : AdjustmentWrite) :
    w.encode.wire =
      AdjustmentWrite.encode
        { w with
          Description := wireText w.Description
          AccountingCode := wireText w.AccountingCode
          Currency := wireText w.Currency
          TaxCode := wireText w.TaxCode } := by
  unfold AdjustmentWrite.encode
  simp only [wire_elem, List.map_nil, wireList_append, wireList_omitemptyString,
    wireList_omitemptyInt, wireList_NullBool, wireList_singleton, wire_textElem,
    wireText_eq_self _ (xmlSafe_formatInt _)]

theorem names_omitemptyString (name s : String) :
    ∀ c ∈ omitemptyString name s, c.name = name := by
  unfold omitemptyString
  split
  · simp
  · simp [name_textElem]

theorem names_omitemptyInt (name : String) (i : Int) :
    ∀ c ∈ omitemptyInt name i, c.name = name := by
  unfold omitemptyInt
  split
  · simp
  · simp [name_textElem]

theorem names_NullBool (name : String) (n : NullBool) :
    ∀ c ∈ NullBool.MarshalXML n name, c.name = name := by
  rcases n with _ | b
  · simp [NullBool.MarshalXML]
  · simp [NullBool.MarshalXML, name_textElem]

/-- C1: the write payload of `Adjustment.MarshalXML` is a function of the seven
caller-supplied fields only: two adjustments that agree on Description,
AccountingCode, UnitAmountInCents, Quantity, Currency, TaxCode and TaxExempt encode to
the same payload, whatever their other fields hold, and every child element of the
payload is one of the seven write elements, never a server-assigned one. -/
theorem marshal_depends_only_on_write_fields (a b : Adjustment)
    (hDescription : a.Description = b.Description)
    (hAccountingCode : a.AccountingCode = b.AccountingCode)
    (hUnitAmountInCents : a.UnitAmountInCents = b.UnitAmountInCents)
    (hQuantity : a.Quantity = b.Quantity)
    (hCurrency : a.Currency = b.Currency)
    (hTaxCode : a.TaxCode = b.TaxCode)
    (hTaxExempt : a.TaxExempt = b.TaxExempt) :
    a.MarshalXML = b.MarshalXML ∧
      a.MarshalXML.name = "adjustment" ∧
      ∀ c ∈ a.MarshalXML.children, c.name ∈ writeNames ∧ c.name ∉ readOnlyNames := by
  refine ⟨?_, rfl, ?_⟩
  · unfold Adjustment.MarshalXML
    rw [hDescription, hAccountingCode, hUnitAmountInCents, hQuantity, hCurrency, hTaxCode,
      hTaxExempt]
  · intro c hc
    have hmem : c.name ∈ writeNames := by
      simp only [Adjustment.MarshalXML, AdjustmentWrite.encode, Node.children, List.mem_append,
        List.mem_singleton] at hc
      rcases hc with (((((hc | hc) | hc) | hc) | hc) | hc) | hc
      · rw [names_omitemptyString _ _ c hc]; decide
      · rw [names_omitemptyString _ _ c hc]; decide
      · rw [hc, name_textElem]; decide
      · rw [names_omitemptyInt _ _ c hc]; decide
      · rw [hc, name_textElem]; decide
      · rw [names_omitemptyString _ _ c hc]; decide
      · rw [names_NullBool _ _ c hc]; decide
    refine ⟨hmem, ?_⟩
    intro hro
    have hdisj : ∀ n ∈ writeNames, n ∉ readOnlyNames := by decide
    exact hdisj _ hmem hro

theorem marshal_depends_only_on_write_fields_witness :
    sampleInvoiced.UUID ≠ sampleCharge.UUID ∧
      sampleInvoiced.TaxDetails ≠ sampleCharge.TaxDetails ∧
      (sampleInvoiced.MarshalXML = sampleCharge.MarshalXML ∧
        sampleInvoiced.MarshalXML.name = "adjustment" ∧
        ∀ c ∈ sampleInvoiced.MarshalXML.children,
          c.name ∈ writeNames ∧ c.name ∉ readOnlyNames) :=
  ⟨by decide, by decide,
    marshal_depends_only_on_write_fields sampleInvoiced sampleCharge rfl rfl rfl rfl rfl rfl rfl⟩

/-- C2 as stated fails: an adjustment whose description holds a vertical tab
encodes and decodes without error, but the description that comes back holds U+FFFD
in its place. -/
theorem roundtrip_replaces_illegal_character :
    (Adjustment.UnmarshalXML noScalars {} verticalTabCharge.MarshalXML.wire).2 = none ∧
      (Adjustment.UnmarshalXML noScalars {} verticalTabCharge.MarshalXML.wire).1.Description
        = "a�b" ∧
      (Adjustment.UnmarshalXML noScalars {} verticalTabCharge.MarshalXML.wire).1.Description
        ≠ verticalTabCharge.Description := by
  decide

/-- C2, amended: for every adjustment (its ints being Go ints), decoding with
`Adjustment.UnmarshalXML` the payload `Adjustment.MarshalXML` produced succeeds;
UnitAmountInCents and Quantity come back equal (also when Quantity is 0 and its
element is omitted); Description, AccountingCode, Currency and TaxCode come back
with every character outside the XML character range replaced by U+FFFD, hence
equal whenever the field holds only XML-legal characters (also when it is empty). -/
theorem roundtrip_write_fields (sc : Scalars) (recv a : Adjustment)
    (hu : isInt64 a.UnitAmountInCents) (hq : isInt64 a.Quantity) :
    ∃ r : Adjustment,
      Adjustment.UnmarshalXML sc recv a.MarshalXML.wire = (r, none) ∧
      r.UnitAmountInCents = a.UnitAmountInCents ∧
      r.Quantity = a.Quantity ∧
      r.Description = wireText a.Description ∧
      r.AccountingCode = wireText a.AccountingCode ∧
      r.Currency = wireText a.Currency ∧
      r.TaxCode = wireText a.TaxCode ∧
      (xmlSafe a.Description → r.Description = a.Description) ∧
      (xmlSafe a.AccountingCode → r.AccountingCode = a.AccountingCode) ∧
      (xmlSafe a.Currency → r.Currency = a.Currency) ∧
      (xmlSafe a.TaxCode → r.TaxCode = a.TaxCode) := by
  have hdec : AdjustmentRead.DecodeElement sc a.MarshalXML.wire =
      ({ Description := wireText a.Description
         AccountingCode := wireText a.AccountingCode
         UnitAmountInCents := a.UnitAmountInCents
         Quantity := a.Quantity
         Currency := wireText a.Currency
         TaxCode := wireText a.TaxCode
         TaxExempt := a.TaxExempt }, none) := by
    unfold Adjustment.MarshalXML
    rw [wire_encode, DecodeElement_encode sc _ hu hq]
  unfold Adjustment.UnmarshalXML
  rw [hdec]
  refine ⟨_, rfl, rfl, rfl, rfl, rfl, rfl, rfl, ?_, ?_, ?_, ?_⟩ <;> intro h <;>
    exact wireText_eq_self _ h

theorem roundtrip_write_fields_witness :
    isInt64 sampleCharge.UnitAmountInCents ∧ isInt64 sampleCharge.Quantity ∧
      ∃ r : Adjustment,
        Adjustment.UnmarshalXML noScalars sampleInvoiced sampleCharge.MarshalXML.wire
          = (r, none) ∧
        r.UnitAmountInCents = sampleCharge.UnitAmountInCents ∧
        r.Quantity = sampleCharge.Quantity ∧
        r.Description = wireText sampleCharge.Description ∧
        r.AccountingCode = wireText sampleCharge.AccountingCode ∧
        r.Currency = wireText sampleCharge.Currency ∧
        r.TaxCode = wireText sampleCharge.TaxCode ∧
        (xmlSafe sampleCharge.Description → r.Description = sampleCharge.Description) ∧
        (xmlSafe sampleCharge.AccountingCode → r.AccountingCode = sampleCharge.AccountingCode) ∧
        (xmlSafe sampleCharge.Currency → r.Currency = sampleCharge.Currency) ∧
        (xmlSafe sampleCharge.TaxCode → r.TaxCode = sampleCharge.TaxCode) :=
  ⟨by decide, by decide,
    roundtrip_write_fields noScalars sampleInvoiced sampleCharge (by decide) (by decide)⟩

/-! ## AdjustmentsService.List -/

theorem unmarshalList_exact (sc : Scalars) (cs : List Node) :
    ∀ v : AdjustmentsList,
      unmarshalChildren (AdjustmentsList.unmarshalPath sc) cs v =
        ({ Adjustments := v.Adjustments ++
            ((cs.filter isAdjustmentChild).takeWhile (decodes sc)).map
              (fun d => (Adjustment.UnmarshalXML sc {} d).1) },
          firstFailure sc (cs.filter isAdjustmentChild)) := by
  induction cs with
  | nil => intro v; simp [unmarshalChildren, firstFailure]
  | cons c cs ih =>
    intro v
    unfold unmarshalChildren
    by_cases he : c.isElem = true
    · rw [if_pos he]
      by_cases hn : c.name = "adjustment"
      · have hadj : isAdjustmentChild c = true := by simp [isAdjustmentChild, he, hn]
        rcases hx : Adjustment.UnmarshalXML sc {} c with ⟨x, _ | e⟩
        · have hd : decodes sc c = true := by simp [decodes, hx]
          simp only [AdjustmentsList.unmarshalPath, hn, if_true, hx]
          rw [ih]
          simp [List.filter_cons, hadj, List.takeWhile_cons, hd, hx, firstFailure]
        · have hd : decodes sc c = false := by simp [decodes, hx]
          simp only [AdjustmentsList.unmarshalPath, hn, if_true, hx]
          simp [List.filter_cons, hadj, List.takeWhile_cons, hd, hx, firstFailure]
      · have hadj : isAdjustmentChild c = false := by simp [isAdjustmentChild, hn]
        simp only [AdjustmentsList.unmarshalPath, hn, if_false]
        rw [ih]
        simp [List.filter_cons, hadj]
    · have hadj : isAdjustmentChild c = false := by simp [isAdjustmentChild, he]
      rw [if_neg he, ih]
      simp [List.filter_cons, hadj]

theorem unmarshalList_complete (sc : Scalars) (cs : List Node) :
    ∀ v : AdjustmentsList,
      (unmarshalChildren (AdjustmentsList.unmarshalPath sc) cs v).2 = none →
      (unmarshalChildren (AdjustmentsList.unmarshalPath sc) cs v).1.Adjustments =
        v.Adjustments ++
          (cs.filter isAdjustmentChild).map (fun c => (Adjustment.UnmarshalXML sc {} c).1) ∧
      ∀ c ∈ cs.filter isAdjustmentChild, (Adjustment.UnmarshalXML sc {} c).2 = none := by
  induction cs with
  | nil => intro v _; simp [unmarshalChildren]
  | cons c cs ih =>
    intro v
    unfold unmarshalChildren
    by_cases he : c.isElem = true
    · rw [if_pos he]
      by_cases hn : c.name = "adjustment"
      · have hadj : isAdjustmentChild c = true := by simp [isAdjustmentChild, he, hn]
        rcases hx : Adjustment.UnmarshalXML sc {} c with ⟨x, _ | e⟩
        · simp only [AdjustmentsList.unmarshalPath, hn, if_true, hx]
          intro h
          obtain ⟨h1, h2⟩ := ih { v with Adjustments := v.Adjustments ++ [x] } h
          refine ⟨?_, ?_⟩
          · rw [h1]; simp [List.filter_cons, hadj, hx]
          · intro d hd
            simp only [List.filter_cons, hadj, if_true, List.mem_cons] at hd
            rcases hd with rfl | hd
            · rw [hx]
            · exact h2 d hd
        · simp only [AdjustmentsList.unmarshalPath, hn, if_true, hx]
          intro h
          cases h
      · have hadj : isAdjustmentChild c = false := by simp [isAdjustmentChild, hn]
        simp only [AdjustmentsList.unmarshalPath, hn, if_false]
        intro h
        obtain ⟨h1, h2⟩ := ih v h
        exact ⟨by rw [h1]; simp [List.filter_cons, hadj],
          by simpa [List.filter_cons, hadj] using h2⟩
    · have hadj : isAdjustmentChild c = false := by simp [isAdjustmentChild, he]
      rw [if_neg he]
      intro h
      obtain ⟨h1, h2⟩ := ih v h
      exact ⟨by rw [h1]; simp [List.filter_cons, hadj],
        by simpa [List.filter_cons, hadj] using h2⟩

theorem list_unfold_error (sc : Scalars) (c : Client) (accountCode : String) (params : Params)
    (e : Error)
    (h : c.requestFor "GET" ("accounts/" ++ accountCode ++ "/adjustments") params none
      = .error e) :
    AdjustmentsService.List sc ⟨c⟩ accountCode params =
      ⟨(c.newRequest "GET" ("accounts/" ++ accountCode ++ "/adjustments") params none).1,
        none, [], some e⟩ := by
  simp only [AdjustmentsService.List, Client.newRequest, h]

theorem list_unfold_ok (sc : Scalars) (c : Client) (accountCode : String) (params : Params)
    (req : Request)
    (h : c.requestFor "GET" ("accounts/" ++ accountCode ++ "/adjustments") params none
      = .ok req) :
    AdjustmentsService.List sc ⟨c⟩ accountCode params =
      ⟨((c.newRequest "GET" ("accounts/" ++ accountCode ++ "/adjustments") params none).1.do
          req (some (AdjustmentsList.unmarshal sc)) {}).1,
        ((c.newRequest "GET" ("accounts/" ++ accountCode ++ "/adjustments") params none).1.do
          req (some (AdjustmentsList.unmarshal sc)) {}).2.1,
        ((c.newRequest "GET" ("accounts/" ++ accountCode ++ "/adjustments") params none).1.do
          req (some (AdjustmentsList.unmarshal sc)) {}).2.2.1.Adjustments,
        ((c.newRequest "GET" ("accounts/" ++ accountCode ++ "/adjustments") params none).1.do
          req (some (AdjustmentsList.unmarshal sc)) {}).2.2.2⟩ := by
  simp only [AdjustmentsService.List, Client.newRequest, h]

/-- C3 as stated fails: the transport answers 200 with two adjustments, the second
one malformed; List returns a non-nil error together with the first adjustment. -/
theorem list_returns_decoded_part_with_error :
    (AdjustmentsService.List noScalars ⟨sampleClient (some secondAdjustmentMalformed)⟩
        "100" []).err = some .UnmarshalError ∧
      (AdjustmentsService.List noScalars ⟨sampleClient (some secondAdjustmentMalformed)⟩
        "100" []).adjustments =
        [{ UUID := "626db120a84102b1809909071c701c60", Quantity := 1 }] := by
  decide

/-- C3, amended: List returns the error of the pipeline together with the
destination as the pipeline left it.  When the request cannot be built the error is
that of `newRequest` and the sequence is nil; when the transport fails, the status
is not 2xx, the body is no document or its root is not `adjustments`, the error is
non-nil and the sequence is empty; when the root is `adjustments`, the sequence
holds, in document order, exactly the `adjustment` children before the first one
that fails to decode (all of them when none fails), and the error is that of this
first failing child (nil when none fails). -/
theorem list_returns_destination (sc : Scalars) (c : Client) (accountCode : String)
    (params : Params) :
    (∀ e, (c.newRequest "GET" ("accounts/" ++ accountCode ++ "/adjustments") params none).2
        = .error e →
      (AdjustmentsService.List sc ⟨c⟩ accountCode params).err = some e ∧
      (AdjustmentsService.List sc ⟨c⟩ accountCode params).adjustments = [] ∧
      (AdjustmentsService.List sc ⟨c⟩ accountCode params).resp = none) ∧
    (∀ req, (c.newRequest "GET" ("accounts/" ++ accountCode ++ "/adjustments") params none).2
        = .ok req →
      (c.roundTrip req = none →
        (AdjustmentsService.List sc ⟨c⟩ accountCode params).err = some .TransportError ∧
        (AdjustmentsService.List sc ⟨c⟩ accountCode params).adjustments = []) ∧
      (∀ resp, c.roundTrip req = some resp →
        ¬ (200 ≤ resp.StatusCode ∧ resp.StatusCode < 300) →
        (AdjustmentsService.List sc ⟨c⟩ accountCode params).err
          = some (statusError resp.StatusCode) ∧
        (AdjustmentsService.List sc ⟨c⟩ accountCode params).adjustments = []) ∧
      (∀ resp, c.roundTrip req = some resp →
        (200 ≤ resp.StatusCode ∧ resp.StatusCode < 300) → resp.Body = none →
        (AdjustmentsService.List sc ⟨c⟩ accountCode params).err = some .UnmarshalError ∧
        (AdjustmentsService.List sc ⟨c⟩ accountCode params).adjustments = []) ∧
      (∀ resp root, c.roundTrip req = some resp →
        (200 ≤ resp.StatusCode ∧ resp.StatusCode < 300) → resp.Body = some root →
        root.name ≠ "adjustments" →
        (AdjustmentsService.List sc ⟨c⟩ accountCode params).err = some .UnmarshalError ∧
        (AdjustmentsService.List sc ⟨c⟩ accountCode params).adjustments = []) ∧
      (∀ resp root, c.roundTrip req = some resp →
        (200 ≤ resp.StatusCode ∧ resp.StatusCode < 300) → resp.Body = some root →
        root.name = "adjustments" →
        (AdjustmentsService.List sc ⟨c⟩ accountCode params).adjustments =
          ((root.children.filter isAdjustmentChild).takeWhile (decodes sc)).map
            (fun d => (Adjustment.UnmarshalXML sc {} d).1) ∧
        (AdjustmentsService.List sc ⟨c⟩ accountCode params).err =
          firstFailure sc (root.children.filter isAdjustmentChild))) := by
  constructor
  · intro e he
    rw [list_unfold_error sc c accountCode params e he]
    exact ⟨rfl, rfl, rfl⟩
  · intro req hreq
    rw [list_unfold_ok sc c accountCode params req hreq]
    refine ⟨?_, ?_, ?_, ?_, ?_⟩
    · intro hrt
      simp [Client.do, Client.newRequest, hrt]
    · intro resp hrt hst
      simp only [Client.do, Client.newRequest, hrt, if_neg hst]
      refine ⟨?_, ?_⟩ <;> first | rfl | trivial
    · intro resp hrt hst hbody
      simp only [Client.do, Client.newRequest, hrt, if_pos hst, hbody]
      refine ⟨?_, ?_⟩ <;> first | rfl | trivial
    · intro resp root hrt hst hbody hn
      simp only [Client.do, Client.newRequest, hrt, if_pos hst, hbody,
        AdjustmentsList.unmarshal, if_neg hn]
      refine ⟨?_, ?_⟩ <;> first | rfl | trivial
    · intro resp root hrt hst hbody hn
      simp only [Client.do, Client.newRequest, hrt, if_pos hst, hbody,
        AdjustmentsList.unmarshal, if_pos hn, unmarshalList_exact]
      refine ⟨?_, ?_⟩ <;> first | rfl | trivial

theorem list_returns_destination_witness :
    (sampleClient (some secondAdjustmentMalformed)).roundTrip
        ⟨"GET", "https://api.recurly.com/v2/accounts/100/adjustments", none⟩
        = some secondAdjustmentMalformed ∧
      (AdjustmentsService.List noScalars ⟨sampleClient (some secondAdjustmentMalformed)⟩
        "100" []).adjustments =
        [{ UUID := "626db120a84102b1809909071c701c60", Quantity := 1 }] ∧
      (AdjustmentsService.List noScalars ⟨sampleClient (some secondAdjustmentMalformed)⟩
        "100" []).adjustments =
        (((match secondAdjustmentMalformed.Body with
            | some root => root.children
            | none => []).filter isAdjustmentChild).takeWhile (decodes noScalars)).map
          (fun d => (Adjustment.UnmarshalXML noScalars {} d).1) ∧
      (AdjustmentsService.List noScalars ⟨sampleClient (some secondAdjustmentMalformed)⟩
        "100" []).err = some .UnmarshalError :=
  have h := ((list_returns_destination noScalars (sampleClient (some secondAdjustmentMalformed))
    "100" []).2 ⟨"GET", "https://api.recurly.com/v2/accounts/100/adjustments", none⟩
    rfl).2.2.2.2 secondAdjustmentMalformed _ rfl (by decide) rfl rfl
  ⟨rfl, by decide, h.1, by decide⟩

/-- C4: whenever List returns a nil error, the request was built and answered, the
response body has the root `adjustments`, and the returned sequence is exactly that
root's `adjustment` children, each decoded by `Adjustment.UnmarshalXML` into a zero
value without error, in document order and of the same length (nothing reordered,
filtered or deduplicated); and for a 2xx response whose root `adjustments` has no
children the result is the empty sequence and a nil error. -/
theorem list_success_is_children_in_order (sc : Scalars) (c : Client) (accountCode : String)
    (params : Params)
    (hok : (AdjustmentsService.List sc ⟨c⟩ accountCode params).err = none) :
    (∃ req resp root,
      (c.newRequest "GET" ("accounts/" ++ accountCode ++ "/adjustments") params none).2
        = .ok req ∧
      c.roundTrip req = some resp ∧ resp.Body = some root ∧ root.name = "adjustments" ∧
      (AdjustmentsService.List sc ⟨c⟩ accountCode params).adjustments =
        (root.children.filter isAdjustmentChild).map
          (fun d => (Adjustment.UnmarshalXML sc {} d).1) ∧
      (∀ d ∈ root.children.filter isAdjustmentChild,
        (Adjustment.UnmarshalXML sc {} d).2 = none) ∧
      (AdjustmentsService.List sc ⟨c⟩ accountCode params).adjustments.length =
        (root.children.filter isAdjustmentChild).length) ∧
    (∀ req resp attrs,
      (c.newRequest "GET" ("accounts/" ++ accountCode ++ "/adjustments") params none).2
        = .ok req →
      c.roundTrip req = some resp →
      (200 ≤ resp.StatusCode ∧ resp.StatusCode < 300) →
      resp.Body = some (.elem "adjustments" attrs []) →
      (AdjustmentsService.List sc ⟨c⟩ accountCode params).adjustments = [] ∧
      (AdjustmentsService.List sc ⟨c⟩ accountCode params).err = none) := by
  constructor
  · rcases hreq : c.requestFor "GET" ("accounts/" ++ accountCode ++ "/adjustments") params none
      with e | req
    · rw [list_unfold_error sc c accountCode params e hreq] at hok
      cases hok
    · rw [list_unfold_ok sc c accountCode params req hreq] at hok ⊢
      rcases hrt : c.roundTrip req with _ | resp
      · simp [Client.do, Client.newRequest, hrt] at hok
      · simp only [Client.do, Client.newRequest, hrt] at hok ⊢
        by_cases hst : 200 ≤ resp.StatusCode ∧ resp.StatusCode < 300
        · rw [if_pos hst] at hok ⊢
          rcases hb : resp.Body with _ | root
          · rw [hb] at hok
            simp at hok
          · rw [hb] at hok
            simp only [AdjustmentsList.unmarshal] at hok ⊢
            by_cases hn : root.name = "adjustments"
            · rw [if_pos hn] at hok ⊢
              obtain ⟨h1, h2⟩ := unmarshalList_complete sc root.children {} hok
              refine ⟨req, resp, root, hreq, hrt, hb, hn, ?_, h2, ?_⟩
              · simpa using h1
              · rw [h1]; simp
            · rw [if_neg hn] at hok
              simp at hok
        · rw [if_neg hst] at hok
          simp at hok
  · intro req resp attrs hreq hrt hst hbody
    rw [list_unfold_ok sc c accountCode params req hreq]
    simp only [Client.do, Client.newRequest, hrt, if_pos hst, hbody,
      AdjustmentsList.unmarshal, Node.name, Node.children, unmarshalChildren, if_true]
    refine ⟨?_, ?_⟩ <;> first | rfl | trivial

theorem list_success_is_children_in_order_witness :
    (AdjustmentsService.List noScalars ⟨sampleClient (some twoAdjustments)⟩ "100" []).err
        = none ∧
      (AdjustmentsService.List noScalars ⟨sampleClient (some twoAdjustments)⟩ "100"
        []).adjustments =
        [{ AccountCode := "100", UUID := "626db120a84102b1809909071c701c60", Quantity := 1 },
         { AccountCode := "100", UUID := "945a4cb9afd64300b97b138407a51aef", Quantity := 2 }] ∧
      (∃ req resp root,
        ((sampleClient (some twoAdjustments)).newRequest "GET"
          ("accounts/" ++ "100" ++ "/adjustments") [] none).2 = .ok req ∧
        (sampleClient (some twoAdjustments)).roundTrip req = some resp ∧
        resp.Body = some root ∧ root.name = "adjustments" ∧
        (AdjustmentsService.List noScalars ⟨sampleClient (some twoAdjustments)⟩ "100"
          []).adjustments =
          (root.children.filter isAdjustmentChild).map
            (fun d => (Adjustment.UnmarshalXML noScalars {} d).1) ∧
        (∀ d ∈ root.children.filter isAdjustmentChild,
          (Adjustment.UnmarshalXML noScalars {} d).2 = none) ∧
        (AdjustmentsService.List noScalars ⟨sampleClient (some twoAdjustments)⟩ "100"
          []).adjustments.length = (root.children.filter isAdjustmentChild).length) ∧
      (AdjustmentsService.List noScalars ⟨sampleClient (some emptyAdjustments)⟩ "100"
        []).adjustments = [] ∧
      (AdjustmentsService.List noScalars ⟨sampleClient (some emptyAdjustments)⟩ "100"
        []).err = none :=
  ⟨by decide, by decide,
    (list_success_is_children_in_order noScalars (sampleClient (some twoAdjustments))
      "100" [] (by decide)).1,
    by decide, by decide⟩

/-! ## Requests built and sent by the services -/

theorem do_client {α : Type} (c : Client) (req : Request)
    (u : Option (α → Node → α × Option Error)) (v : α) :
    (c.do req u v).1 = { c with log := c.log ++ [.do_ req] } := by
  unfold Client.do
  repeat (first | rfl | split)

theorem built_append (xs ys : List Call) : built (xs ++ ys) = built xs ++ built ys := by
  induction xs with
  | nil => rfl
  | cons x t ih => cases x <;> simp [built, ih]

theorem bodies_append (xs ys : List Call) : bodies (xs ++ ys) = bodies xs ++ bodies ys := by
  induction xs with
  | nil => rfl
  | cons x t ih => cases x <;> simp [bodies, ih]

theorem sent_append (xs ys : List Call) : sent (xs ++ ys) = sent xs ++ sent ys := by
  induction xs with
  | nil => rfl
  | cons x t ih => cases x <;> simp [sent, ih]

theorem sends_append (xs ys : List Call) : sends (xs ++ ys) = sends xs + sends ys := by
  simp [sends, List.filter_append]

theorem adjustments_list_log (sc : Scalars) (c : Client) (id : String) (params : Params) :
    (AdjustmentsService.List sc ⟨c⟩ id params).client.log =
      c.log ++ .newRequest "GET" ("accounts/" ++ id ++ "/adjustments") params none ::
        (match (c.newRequest "GET" ("accounts/" ++ id ++ "/adjustments") params none).2 with
          | .ok req => [.do_ req]
          | .error _ => []) := by
  rcases h : c.requestFor "GET" ("accounts/" ++ id ++ "/adjustments") params none with e | req
  · simp [AdjustmentsService.List, Client.newRequest, h]
  · simp [AdjustmentsService.List, Client.newRequest, h, do_client]

theorem adjustments_get_log (sc : Scalars) (c : Client) (id : String) :
    (AdjustmentsService.Get sc ⟨c⟩ id).client.log =
      c.log ++ .newRequest "GET" ("adjustments/" ++ id) [] none ::
        (match (c.newRequest "GET" ("adjustments/" ++ id) [] none).2 with
          | .ok req => [.do_ req]
          | .error _ => []) := by
  rcases h : c.requestFor "GET" ("adjustments/" ++ id) [] none with e | req
  · simp [AdjustmentsService.Get, Client.newRequest, h]
  · simp [AdjustmentsService.Get, Client.newRequest, h, do_client]

theorem adjustments_create_log (sc : Scalars) (c : Client) (id : String) (a : Adjustment) :
    (AdjustmentsService.Create sc ⟨c⟩ id a).client.log =
      c.log ++ .newRequest "POST" ("accounts/" ++ id ++ "/adjustments") [] (some a.MarshalXML) ::
        (match (c.newRequest "POST" ("accounts/" ++ id ++ "/adjustments") []
            (some a.MarshalXML)).2 with
          | .ok req => [.do_ req]
          | .error _ => []) := by
  rcases h : c.requestFor "POST" ("accounts/" ++ id ++ "/adjustments") [] (some a.MarshalXML)
    with e | req
  · simp [AdjustmentsService.Create, Client.newRequest, h]
  · simp [AdjustmentsService.Create, Client.newRequest, h, do_client]

theorem adjustments_delete_log (c : Client) (id : String) :
    (AdjustmentsService.Delete ⟨c⟩ id).client.log =
      c.log ++ .newRequest "DELETE" ("adjustments/" ++ id) [] none ::
        (match (c.newRequest "DELETE" ("adjustments/" ++ id) [] none).2 with
          | .ok req => [.do_ req]
          | .error _ => []) := by
  rcases h : c.requestFor "DELETE" ("adjustments/" ++ id) [] none with e | req
  · simp [AdjustmentsService.Delete, Client.newRequest, h]
  · simp [AdjustmentsService.Delete, Client.newRequest, h, do_client]

theorem redemptions_getForAccount_log (sc : Scalars) (c : Client) (id : String) :
    (RedemptionsService.GetForAccount sc ⟨c⟩ id).client.log =
      c.log ++ .newRequest "GET" ("accounts/" ++ id ++ "/redemption") [] none ::
        (match (c.newRequest "GET" ("accounts/" ++ id ++ "/redemption") [] none).2 with
          | .ok req => [.do_ req]
          | .error _ => []) := by
  rcases h : c.requestFor "GET" ("accounts/" ++ id ++ "/redemption") [] none with e | req
  · simp [RedemptionsService.GetForAccount, Client.newRequest, h]
  · simp [RedemptionsService.GetForAccount, Client.newRequest, h, do_client]

theorem redemptions_getForInvoice_log (sc : Scalars) (c : Client) (id : String) :
    (RedemptionsService.GetForInvoice sc ⟨c⟩ id).client.log =
      c.log ++ .newRequest "GET" ("invoices/" ++ id ++ "/redemption") [] none ::
        (match (c.newRequest "GET" ("invoices/" ++ id ++ "/redemption") [] none).2 with
          | .ok req => [.do_ req]
          | .error _ => []) := by
  rcases h : c.requestFor "GET" ("invoices/" ++ id ++ "/redemption") [] none with e | req
  · simp [RedemptionsService.GetForInvoice, Client.newRequest, h]
  · simp [RedemptionsService.GetForInvoice, Client.newRequest, h, do_client]

theorem redemptions_redeem_log (sc : Scalars) (c : Client) (code accountCode currency : String) :
    (RedemptionsService.Redeem sc ⟨c⟩ code accountCode currency).client.log =
      c.log ++ .newRequest "POST" ("coupons/" ++ code ++ "/redeem") []
          (some (.elem "redemption" []
            [textElem "account_code" accountCode, textElem "currency" currency])) ::
        (match (c.newRequest "POST" ("coupons/" ++ code ++ "/redeem") []
            (some (.elem "redemption" []
              [textElem "account_code" accountCode, textElem "currency" currency]))).2 with
          | .ok req => [.do_ req]
          | .error _ => []) := by
  rcases h : c.requestFor "POST" ("coupons/" ++ code ++ "/redeem") []
    (some (.elem "redemption" []
      [textElem "account_code" accountCode, textElem "currency" currency])) with e | req
  · simp [RedemptionsService.Redeem, Client.newRequest, h, RedeemData.encode]
  · simp [RedemptionsService.Redeem, Client.newRequest, h, do_client, RedeemData.encode]

theorem redemptions_delete_log (c : Client) (id : String) :
    (RedemptionsService.Delete ⟨c⟩ id).client.log =
      c.log ++ .newRequest "DELETE" ("accounts/" ++ id ++ "/redemption") [] none ::
        (match (c.newRequest "DELETE" ("accounts/" ++ id ++ "/redemption") [] none).2 with
          | .ok req => [.do_ req]
          | .error _ => []) := by
  rcases h : c.requestFor "DELETE" ("accounts/" ++ id ++ "/redemption") [] none with e | req
  · simp [RedemptionsService.Delete, Client.newRequest, h]
  · simp [RedemptionsService.Delete, Client.newRequest, h, do_client]

theorem built_after (pre : List Call) (method action : String) (params : Params)
    (body : Option Node) (asked : Except Error Request) :
    built (pre ++ .newRequest method action params body ::
        (match asked with
          | .ok req => [.do_ req]
          | .error _ => [])) = built pre ++ [(method, "/" ++ action)] := by
  rw [built_append]
  cases asked <;> simp [built]

theorem bodies_after (pre : List Call) (method action : String) (params : Params)
    (body : Option Node) (asked : Except Error Request) :
    bodies (pre ++ .newRequest method action params body ::
        (match asked with
          | .ok req => [.do_ req]
          | .error _ => [])) = bodies pre ++ [body] := by
  rw [bodies_append]
  cases asked <;> simp [bodies]

theorem oneRoundTrip_after (c after : Client) (method action : String) (params : Params)
    (body : Option Node) (asked : Except Error Request) (err : Option Error)
    (hlog : after.log = c.log ++ .newRequest method action params body ::
        (match asked with
          | .ok req => [.do_ req]
          | .error _ => []))
    (herr : ∀ e, asked = .error e → err = some e) :
    oneRoundTrip c after asked err := by
  unfold oneRoundTrip
  rw [hlog, sends_append, sent_append]
  rcases asked with e | req
  · refine ⟨by simp [sends, Call.isSend, succeeded], ?_, ?_⟩
    · intro req h; cases h
    · intro e2 h
      exact ⟨by simp [sent], herr e2 h⟩
  · refine ⟨by simp [sends, Call.isSend, succeeded], ?_, ?_⟩
    · intro r h
      cases h
      simp [sent]
    · intro e h; cases h

theorem slash_accounts_adjustments (id : String) :
    "/" ++ ("accounts/" ++ id ++ "/adjustments") = "/accounts/" ++ id ++ "/adjustments" := by
  apply String.ext; simp

theorem slash_adjustments (id : String) :
    "/" ++ ("adjustments/" ++ id) = "/adjustments/" ++ id := by
  apply String.ext; simp

theorem slash_accounts_redemption (id : String) :
    "/" ++ ("accounts/" ++ id ++ "/redemption") = "/accounts/" ++ id ++ "/redemption" := by
  apply String.ext; simp

theorem slash_invoices_redemption (id : String) :
    "/" ++ ("invoices/" ++ id ++ "/redemption") = "/invoices/" ++ id ++ "/redemption" := by
  apply String.ext; simp

theorem slash_coupons_redeem (id : String) :
    "/" ++ ("coupons/" ++ id ++ "/redeem") = "/coupons/" ++ id ++ "/redeem" := by
  apply String.ext; simp

/-- C5: each service method makes exactly one `newRequest` call on the shared
client, with the HTTP method and the path below the base URL of the path table, the
identifier inserted unchanged: Adjustments List, Get, Create, Delete and Redemptions
GetForAccount, GetForInvoice, Redeem, Delete.  List and Create of adjustments target
the same path for the same account code, Get and Delete the same path for the same
uuid. -/
theorem service_request_lines (sc : Scalars) (c : Client) (id : String) (params : Params)
    (a : Adjustment) (accountCode currency : String) :
    built (AdjustmentsService.List sc ⟨c⟩ id params).client.log
        = built c.log ++ [("GET", "/accounts/" ++ id ++ "/adjustments")] ∧
      built (AdjustmentsService.Get sc ⟨c⟩ id).client.log
        = built c.log ++ [("GET", "/adjustments/" ++ id)] ∧
      built (AdjustmentsService.Create sc ⟨c⟩ id a).client.log
        = built c.log ++ [("POST", "/accounts/" ++ id ++ "/adjustments")] ∧
      built (AdjustmentsService.Delete ⟨c⟩ id).client.log
        = built c.log ++ [("DELETE", "/adjustments/" ++ id)] ∧
      built (RedemptionsService.GetForAccount sc ⟨c⟩ id).client.log
        = built c.log ++ [("GET", "/accounts/" ++ id ++ "/redemption")] ∧
      built (RedemptionsService.GetForInvoice sc ⟨c⟩ id).client.log
        = built c.log ++ [("GET", "/invoices/" ++ id ++ "/redemption")] ∧
      built (RedemptionsService.Redeem sc ⟨c⟩ id accountCode currency).client.log
        = built c.log ++ [("POST", "/coupons/" ++ id ++ "/redeem")] ∧
      built (RedemptionsService.Delete ⟨c⟩ id).client.log
        = built c.log ++ [("DELETE", "/accounts/" ++ id ++ "/redemption")] ∧
      (built (AdjustmentsService.List sc ⟨c⟩ id params).client.log).map Prod.snd
        = (built (AdjustmentsService.Create sc ⟨c⟩ id a).client.log).map Prod.snd ∧
      (built (AdjustmentsService.Get sc ⟨c⟩ id).client.log).map Prod.snd
        = (built (AdjustmentsService.Delete ⟨c⟩ id).client.log).map Prod.snd := by
  have h1 := adjustments_list_log sc c id params
  have h2 := adjustments_get_log sc c id
  have h3 := adjustments_create_log sc c id a
  have h4 := adjustments_delete_log c id
  have h5 := redemptions_getForAccount_log sc c id
  have h6 := redemptions_getForInvoice_log sc c id
  have h7 := redemptions_redeem_log sc c id accountCode currency
  have h8 := redemptions_delete_log c id
  rw [h1, h2, h3, h4, h5, h6, h7, h8]
  simp only [built_after, slash_accounts_adjustments, slash_adjustments,
    slash_accounts_redemption, slash_invoices_redemption, slash_coupons_redeem]
  simp

/-- C9 as stated fails: with an account code that ends in a line feed the request
cannot be built, and List returns the error without any round trip. -/
theorem list_without_round_trip :
    sends (AdjustmentsService.List noScalars ⟨sampleClient (some twoAdjustments)⟩
        "100\n" []).client.log = 0 ∧
      (AdjustmentsService.List noScalars ⟨sampleClient (some twoAdjustments)⟩
        "100\n" []).err = some .BuildError := by
  decide

theorem err_of_failed_build_entity {α : Type} (nr : Client × Except Error Request)
    (f : Request → EntityResult α) (e : Error) (h : nr.2 = .error e) :
    (match nr.2 with
      | .error err => (⟨nr.1, none, none, some err⟩ : EntityResult α)
      | .ok req => f req).err = some e := by
  rw [h]

theorem err_of_failed_build_delete (nr : Client × Except Error Request)
    (f : Request → DeleteResult) (e : Error) (h : nr.2 = .error e) :
    (match nr.2 with
      | .error err => (⟨nr.1, none, some err⟩ : DeleteResult)
      | .ok req => f req).err = some e := by
  rw [h]

/-- C9, amended: one call of a service method performs at most one request/response
round trip through the shared pipeline: when `newRequest` returned a request, the
send operation is invoked exactly once, on that request; when building the request
failed, it is not invoked at all and the method returns that error; never more than
once (no retry, no pagination follow-up). -/
theorem one_round_trip_when_built (sc : Scalars) (c : Client) (id : String) (params : Params)
    (a : Adjustment) (accountCode currency : String) :
    oneRoundTrip c (AdjustmentsService.List sc ⟨c⟩ id params).client
        (c.newRequest "GET" ("accounts/" ++ id ++ "/adjustments") params none).2
        (AdjustmentsService.List sc ⟨c⟩ id params).err ∧
      oneRoundTrip c (AdjustmentsService.Get sc ⟨c⟩ id).client
        (c.newRequest "GET" ("adjustments/" ++ id) [] none).2
        (AdjustmentsService.Get sc ⟨c⟩ id).err ∧
      oneRoundTrip c (AdjustmentsService.Create sc ⟨c⟩ id a).client
        (c.newRequest "POST" ("accounts/" ++ id ++ "/adjustments") [] (some a.MarshalXML)).2
        (AdjustmentsService.Create sc ⟨c⟩ id a).err ∧
      oneRoundTrip c (AdjustmentsService.Delete ⟨c⟩ id).client
        (c.newRequest "DELETE" ("adjustments/" ++ id) [] none).2
        (AdjustmentsService.Delete ⟨c⟩ id).err ∧
      oneRoundTrip c (RedemptionsService.GetForAccount sc ⟨c⟩ id).client
        (c.newRequest "GET" ("accounts/" ++ id ++ "/redemption") [] none).2
        (RedemptionsService.GetForAccount sc ⟨c⟩ id).err ∧
      oneRoundTrip c (RedemptionsService.GetForInvoice sc ⟨c⟩ id).client
        (c.newRequest "GET" ("invoices/" ++ id ++ "/redemption") [] none).2
        (RedemptionsService.GetForInvoice sc ⟨c⟩ id).err ∧
      oneRoundTrip c (RedemptionsService.Redeem sc ⟨c⟩ id accountCode currency).client
        (c.newRequest "POST" ("coupons/" ++ id ++ "/redeem") []
          (some (RedeemData.encode { AccountCode := accountCode, Currency := currency }))).2
        (RedemptionsService.Redeem sc ⟨c⟩ id accountCode currency).err ∧
      oneRoundTrip c (RedemptionsService.Delete ⟨c⟩ id).client
        (c.newRequest "DELETE" ("accounts/" ++ id ++ "/redemption") [] none).2
        (RedemptionsService.Delete ⟨c⟩ id).err ∧
      sends (AdjustmentsService.List sc ⟨c⟩ id params).client.log ≤ sends c.log + 1 ∧
      sends (AdjustmentsService.Get sc ⟨c⟩ id).client.log ≤ sends c.log + 1 ∧
      sends (AdjustmentsService.Create sc ⟨c⟩ id a).client.log ≤ sends c.log + 1 ∧
      sends (AdjustmentsService.Delete ⟨c⟩ id).client.log ≤ sends c.log + 1 ∧
      sends (RedemptionsService.GetForAccount sc ⟨c⟩ id).client.log ≤ sends c.log + 1 ∧
      sends (RedemptionsService.GetForInvoice sc ⟨c⟩ id).client.log ≤ sends c.log + 1 ∧
      sends (RedemptionsService.Redeem sc ⟨c⟩ id accountCode currency).client.log
        ≤ sends c.log + 1 ∧
      sends (RedemptionsService.Delete ⟨c⟩ id).client.log ≤ sends c.log + 1 := by
  have h1 : oneRoundTrip c (AdjustmentsService.List sc ⟨c⟩ id params).client
      (c.newRequest "GET" ("accounts/" ++ id ++ "/adjustments") params none).2
      (AdjustmentsService.List sc ⟨c⟩ id params).err :=
    oneRoundTrip_after c _ _ _ _ _ _ _ (adjustments_list_log sc c id params)
      (fun e h => by rw [list_unfold_error sc c id params e h])
  have h2 : oneRoundTrip c (AdjustmentsService.Get sc ⟨c⟩ id).client
      (c.newRequest "GET" ("adjustments/" ++ id) [] none).2
      (AdjustmentsService.Get sc ⟨c⟩ id).err :=
    oneRoundTrip_after c _ _ _ _ _ _ _ (adjustments_get_log sc c id)
      (fun e h => err_of_failed_build_entity _ _ e h)
  have h3 : oneRoundTrip c (AdjustmentsService.Create sc ⟨c⟩ id a).client
      (c.newRequest "POST" ("accounts/" ++ id ++ "/adjustments") [] (some a.MarshalXML)).2
      (AdjustmentsService.Create sc ⟨c⟩ id a).err :=
    oneRoundTrip_after c _ _ _ _ _ _ _ (adjustments_create_log sc c id a)
      (fun e h => err_of_failed_build_entity _ _ e h)
  have h4 : oneRoundTrip c (AdjustmentsService.Delete ⟨c⟩ id).client
      (c.newRequest "DELETE" ("adjustments/" ++ id) [] none).2
      (AdjustmentsService.Delete ⟨c⟩ id).err :=
    oneRoundTrip_after c _ _ _ _ _ _ _ (adjustments_delete_log c id)
      (fun e h => err_of_failed_build_delete _ _ e h)
  have h5 : oneRoundTrip c (RedemptionsService.GetForAccount sc ⟨c⟩ id).client
      (c.newRequest "GET" ("accounts/" ++ id ++ "/redemption") [] none).2
      (RedemptionsService.GetForAccount sc ⟨c⟩ id).err :=
    oneRoundTrip_after c _ _ _ _ _ _ _ (redemptions_getForAccount_log sc c id)
      (fun e h => err_of_failed_build_entity _ _ e h)
  have h6 : oneRoundTrip c (RedemptionsService.GetForInvoice sc ⟨c⟩ id).client
      (c.newRequest "GET" ("invoices/" ++ id ++ "/redemption") [] none).2
      (RedemptionsService.GetForInvoice sc ⟨c⟩ id).err :=
    oneRoundTrip_after c _ _ _ _ _ _ _ (redemptions_getForInvoice_log sc c id)
      (fun e h => err_of_failed_build_entity _ _ e h)
  have h7 : oneRoundTrip c (RedemptionsService.Redeem sc ⟨c⟩ id accountCode currency).client
      (c.newRequest "POST" ("coupons/" ++ id ++ "/redeem") []
        (some (RedeemData.encode { AccountCode := accountCode, Currency := currency }))).2
      (RedemptionsService.Redeem sc ⟨c⟩ id accountCode currency).err :=
    oneRoundTrip_after c _ _ _ _ _ _ _ (redemptions_redeem_log sc c id accountCode currency)
      (fun e h => err_of_failed_build_entity _ _ e h)
  have h8 : oneRoundTrip c (RedemptionsService.Delete ⟨c⟩ id).client
      (c.newRequest "DELETE" ("accounts/" ++ id ++ "/redemption") [] none).2
      (RedemptionsService.Delete ⟨c⟩ id).err :=
    oneRoundTrip_after c _ _ _ _ _ _ _ (redemptions_delete_log c id)
      (fun e h => err_of_failed_build_delete _ _ e h)
  have bound : ∀ (after : Client) (asked : Except Error Request) (err : Option Error),
      oneRoundTrip c after asked err → sends after.log ≤ sends c.log + 1 := by
    intro after asked err h
    rw [h.1]
    split <;> omega
  exact ⟨h1, h2, h3, h4, h5, h6, h7, h8, bound _ _ _ h1, bound _ _ _ h2, bound _ _ _ h3,
    bound _ _ _ h4, bound _ _ _ h5, bound _ _ _ h6, bound _ _ _ h7, bound _ _ _ h8⟩

theorem do_result_congr {α : Type} (c1 c2 : Client) (req1 req2 : Request)
    (u : Option (α → Node → α × Option Error)) (v : α)
    (h : c1.roundTrip req1 = c2.roundTrip req2) :
    (c1.do req1 u v).2 = (c2.do req2 u v).2 := by
  unfold Client.do
  rw [h]
  repeat (first | rfl | split)

/-- C6 as stated fails: with an account code that holds a vertical tab the request
body Redeem sends carries U+FFFD in its place, not the argument. -/
theorem redeem_body_replaces_illegal_character :
    (wireBodies (RedemptionsService.Redeem noScalars ⟨sampleClient (some redemptionAnswer)⟩
        "special" "a\x0bb" "USD").client.log).map
        (Option.map fun body => body.children.map Node.chardata)
      = [some ["a�b", "USD"]] ∧
    (wireBodies (RedemptionsService.Redeem noScalars ⟨sampleClient (some redemptionAnswer)⟩
        "special" "a\x0bb" "USD").client.log).map
        (Option.map fun body => body.children.map Node.chardata)
      ≠ [some ["a\x0bb", "USD"]] := by
  decide

/-- C6, amended: Redeem hands `newRequest` one body, whose root element is
`redemption` and whose only children are `account_code` and `currency`, in that
order, without attributes (no href), both present also when empty; as sent, they
carry accountCode and currency as plain text with every character outside the XML
character range replaced by U+FFFD, hence equal to the arguments whenever these hold
only XML-legal characters; the body does not depend on the coupon code, which goes
into the path; and whenever the transport answers the Redeem request as it answers
the GetForAccount request, both methods return the same response, entity and error:
the response is decoded with the same `Redemption.UnmarshalXML`. -/
theorem redeem_body_and_decoding (sc : Scalars) (c : Client) (code accountCode currency : String) :
    bodies (RedemptionsService.Redeem sc ⟨c⟩ code accountCode currency).client.log =
        bodies c.log ++ [some (.elem "redemption" []
          [textElem "account_code" accountCode, textElem "currency" currency])] ∧
      wireBodies (RedemptionsService.Redeem sc ⟨c⟩ code accountCode currency).client.log =
        wireBodies c.log ++ [some (.elem "redemption" []
          [textElem "account_code" (wireText accountCode),
           textElem "currency" (wireText currency)])] ∧
      built (RedemptionsService.Redeem sc ⟨c⟩ code accountCode currency).client.log
        = built c.log ++ [("POST", "/coupons/" ++ code ++ "/redeem")] ∧
      [textElem "account_code" (wireText accountCode),
        textElem "currency" (wireText currency)].map Node.name
        = ["account_code", "currency"] ∧
      [textElem "account_code" (wireText accountCode),
        textElem "currency" (wireText currency)].map Node.chardata
        = [wireText accountCode, wireText currency] ∧
      [textElem "account_code" (wireText accountCode),
        textElem "currency" (wireText currency)].map Node.attrs
        = [[], []] ∧
      (xmlSafe accountCode → xmlSafe currency →
        wireBodies (RedemptionsService.Redeem sc ⟨c⟩ code accountCode currency).client.log =
          wireBodies c.log ++ [some (.elem "redemption" []
            [textElem "account_code" accountCode, textElem "currency" currency])] ∧
        [textElem "account_code" (wireText accountCode),
          textElem "currency" (wireText currency)].map Node.chardata
          = [accountCode, currency]) ∧
      (∀ other : String,
        wireBodies (RedemptionsService.Redeem sc ⟨c⟩ other accountCode currency).client.log =
          wireBodies (RedemptionsService.Redeem sc ⟨c⟩ code accountCode currency).client.log) ∧
      (∀ (account : String) (req1 req2 : Request),
        (c.newRequest "POST" ("coupons/" ++ code ++ "/redeem") []
          (some (RedeemData.encode { AccountCode := accountCode, Currency := currency }))).2
          = .ok req1 →
        (c.newRequest "GET" ("accounts/" ++ account ++ "/redemption") [] none).2 = .ok req2 →
        c.roundTrip req1 = c.roundTrip req2 →
        (RedemptionsService.Redeem sc ⟨c⟩ code accountCode currency).entity =
          (RedemptionsService.GetForAccount sc ⟨c⟩ account).entity ∧
        (RedemptionsService.Redeem sc ⟨c⟩ code accountCode currency).err =
          (RedemptionsService.GetForAccount sc ⟨c⟩ account).err ∧
        (RedemptionsService.Redeem sc ⟨c⟩ code accountCode currency).resp =
          (RedemptionsService.GetForAccount sc ⟨c⟩ account).resp) := by
  have hb : ∀ other : String,
      bodies (RedemptionsService.Redeem sc ⟨c⟩ other accountCode currency).client.log =
        bodies c.log ++ [some (.elem "redemption" []
          [textElem "account_code" accountCode, textElem "currency" currency])] := by
    intro other
    rw [redemptions_redeem_log, bodies_after]
  have hw : ∀ other : String,
      wireBodies (RedemptionsService.Redeem sc ⟨c⟩ other accountCode currency).client.log =
        wireBodies c.log ++ [some (.elem "redemption" []
          [textElem "account_code" (wireText accountCode),
           textElem "currency" (wireText currency)])] := by
    intro other
    unfold wireBodies
    rw [hb other]
    simp [wire_elem, wireList, wire_textElem]
  refine ⟨hb code, hw code, ?_, ?_, ?_, rfl, ?_, ?_, ?_⟩
  · rw [redemptions_redeem_log, built_after, slash_coupons_redeem]
  · simp [name_textElem]
  · simp [chardata_textElem]
  · intro h1 h2
    rw [hw code, wireText_eq_self _ h1, wireText_eq_self _ h2]
    exact ⟨rfl, by simp [chardata_textElem]⟩
  · intro other
    rw [hw other, hw code]
  · intro account req1 req2 h1 h2 hrt
    have h1' : c.requestFor "POST" ("coupons/" ++ code ++ "/redeem") []
        (some (RedeemData.encode { AccountCode := accountCode, Currency := currency }))
        = .ok req1 := h1
    have h2' : c.requestFor "GET" ("accounts/" ++ account ++ "/redemption") [] none
        = .ok req2 := h2
    have hd := do_result_congr
      (c.newRequest "POST" ("coupons/" ++ code ++ "/redeem") []
        (some (RedeemData.encode { AccountCode := accountCode, Currency := currency }))).1
      (c.newRequest "GET" ("accounts/" ++ account ++ "/redemption") [] none).1
      req1 req2 (some (Redemption.UnmarshalXML sc)) ({} : Redemption) hrt
    simp only [RedemptionsService.Redeem, RedemptionsService.GetForAccount, h1, h2, hd]
    exact ⟨trivial, trivial, trivial⟩

theorem redeem_body_and_decoding_witness :
    xmlSafe "100" ∧ xmlSafe "USD" ∧
      wireBodies (RedemptionsService.Redeem noScalars ⟨sampleClient (some redemptionAnswer)⟩
        "special" "100" "USD").client.log =
        wireBodies (sampleClient (some redemptionAnswer)).log ++ [some (.elem "redemption" []
          [textElem "account_code" "100", textElem "currency" "USD"])] ∧
      (RedemptionsService.Redeem noScalars ⟨sampleClient (some redemptionAnswer)⟩
        "special" "100" "USD").entity =
        (RedemptionsService.GetForAccount noScalars ⟨sampleClient (some redemptionAnswer)⟩
          "100").entity ∧
      (RedemptionsService.Redeem noScalars ⟨sampleClient (some redemptionAnswer)⟩
        "special" "100" "USD").entity =
        some { CouponCode := "special", AccountCode := "100", SingleUse := some true,
               TotalDiscountedInCents := 500, Currency := "USD", State := "active" } :=
  have h := redeem_body_and_decoding noScalars (sampleClient (some redemptionAnswer))
    "special" "100" "USD"
  ⟨by decide, by decide, (h.2.2.2.2.2.2.1 (by decide) (by decide)).1,
    (h.2.2.2.2.2.2.2.2 "100" _ _ rfl rfl rfl).1, by decide⟩

/-! ## UnmarshalXML and the receiver -/

theorem unmarshalChildren_keeps {σ β : Type} (f : σ → Node → σ × Option Error) (p : σ → β)
    (cs : List Node)
    (h : ∀ v c, c ∈ cs → c.isElem = true → p (f v c).1 = p v) :
    ∀ v, p (unmarshalChildren f cs v).1 = p v := by
  induction cs with
  | nil => intro v; rfl
  | cons c cs ih =>
    have ih2 := ih (fun v d hd he => h v d (List.mem_cons_of_mem _ hd) he)
    intro v
    unfold unmarshalChildren
    by_cases he : c.isElem = true
    · rw [if_pos he]
      have hc := h v c (List.mem_cons_self _ _) he
      rcases hf : f v c with ⟨v1, _ | e⟩
      · rw [hf] at hc
        simp only
        rw [ih2 v1]
        exact hc
      · rw [hf] at hc
        exact hc
    · rw [if_neg he]
      exact ih2 v

theorem adjustment_keeps_AccountCode (sc : Scalars) (v : AdjustmentRead) (c : Node) (hc : c.name ≠ "account") :
    (AdjustmentRead.unmarshalPath sc v c).1.AccountCode = v.AccountCode := by
  unfold AdjustmentRead.unmarshalPath
  simp only [hc, if_false, apply_ite Prod.fst, apply_ite AdjustmentRead.AccountCode, ite_self]

theorem adjustment_keeps_InvoiceNumber (sc : Scalars) (v : AdjustmentRead) (c : Node) (hc : c.name ≠ "invoice") :
    (AdjustmentRead.unmarshalPath sc v c).1.InvoiceNumber = v.InvoiceNumber := by
  unfold AdjustmentRead.unmarshalPath
  simp only [hc, if_false, apply_ite Prod.fst, apply_ite AdjustmentRead.InvoiceNumber, ite_self]

theorem adjustment_keeps_UUID (sc : Scalars) (v : AdjustmentRead) (c : Node) (hc : c.name ≠ "uuid") :
    (AdjustmentRead.unmarshalPath sc v c).1.UUID = v.UUID := by
  unfold AdjustmentRead.unmarshalPath
  simp only [hc, if_false, apply_ite Prod.fst, apply_ite AdjustmentRead.UUID, ite_self]

theorem adjustment_keeps_State (sc : Scalars) (v : AdjustmentRead) (c : Node) (hc : c.name ≠ "state") :
    (AdjustmentRead.unmarshalPath sc v c).1.State = v.State := by
  unfold AdjustmentRead.unmarshalPath
  simp only [hc, if_false, apply_ite Prod.fst, apply_ite AdjustmentRead.State, ite_self]

theorem adjustment_keeps_Description (sc : Scalars) (v : AdjustmentRead) (c : Node) (hc : c.name ≠ "description") :
    (AdjustmentRead.unmarshalPath sc v c).1.Description = v.Description := by
  unfold AdjustmentRead.unmarshalPath
  simp only [hc, if_false, apply_ite Prod.fst, apply_ite AdjustmentRead.Description, ite_self]

theorem adjustment_keeps_AccountingCode (sc : Scalars) (v : AdjustmentRead) (c : Node) (hc : c.name ≠ "accounting_code") :
    (AdjustmentRead.unmarshalPath sc v c).1.AccountingCode = v.AccountingCode := by
  unfold AdjustmentRead.unmarshalPath
  simp only [hc, if_false, apply_ite Prod.fst, apply_ite AdjustmentRead.AccountingCode, ite_self]

theorem adjustment_keeps_ProductCode (sc : Scalars) (v : AdjustmentRead) (c : Node) (hc : c.name ≠ "product_code") :
    (AdjustmentRead.unmarshalPath sc v c).1.ProductCode = v.ProductCode := by
  unfold AdjustmentRead.unmarshalPath
  simp only [hc, if_false, apply_ite Prod.fst, apply_ite AdjustmentRead.ProductCode, ite_self]

theorem adjustment_keeps_Origin (sc : Scalars) (v : AdjustmentRead) (c : Node) (hc : c.name ≠ "origin") :
    (AdjustmentRead.unmarshalPath sc v c).1.Origin = v.Origin := by
  unfold AdjustmentRead.unmarshalPath
  simp only [hc, if_false, apply_ite Prod.fst, apply_ite AdjustmentRead.Origin, ite_self]

theorem adjustment_keeps_UnitAmountInCents (sc : Scalars) (v : AdjustmentRead) (c : Node) (hc : c.name ≠ "unit_amount_in_cents") :
    (AdjustmentRead.unmarshalPath sc v c).1.UnitAmountInCents = v.UnitAmountInCents := by
  unfold AdjustmentRead.unmarshalPath
  simp only [hc, if_false, apply_ite Prod.fst, apply_ite AdjustmentRead.UnitAmountInCents, ite_self]

theorem adjustment_keeps_Quantity (sc : Scalars) (v : AdjustmentRead) (c : Node) (hc : c.name ≠ "quantity") :
    (AdjustmentRead.unmarshalPath sc v c).1.Quantity = v.Quantity := by
  unfold AdjustmentRead.unmarshalPath
  simp only [hc, if_false, apply_ite Prod.fst, apply_ite AdjustmentRead.Quantity, ite_self]

theorem adjustment_keeps_OriginalAdjustmentUUID (sc : Scalars) (v : AdjustmentRead) (c : Node) (hc : c.name ≠ "original_adjustment_uuid") :
    (AdjustmentRead.unmarshalPath sc v c).1.OriginalAdjustmentUUID = v.OriginalAdjustmentUUID := by
  unfold AdjustmentRead.unmarshalPath
  simp only [hc, if_false, apply_ite Prod.fst, apply_ite AdjustmentRead.OriginalAdjustmentUUID, ite_self]

theorem adjustment_keeps_DiscountInCents (sc : Scalars) (v : AdjustmentRead) (c : Node) (hc : c.name ≠ "discount_in_cents") :
    (AdjustmentRead.unmarshalPath sc v c).1.DiscountInCents = v.DiscountInCents := by
  unfold AdjustmentRead.unmarshalPath
  simp only [hc, if_false, apply_ite Prod.fst, apply_ite AdjustmentRead.DiscountInCents, ite_self]

theorem adjustment_keeps_TaxInCents (sc : Scalars) (v : AdjustmentRead) (c : Node) (hc : c.name ≠ "tax_in_cents") :
    (AdjustmentRead.unmarshalPath sc v c).1.TaxInCents = v.TaxInCents := by
  unfold AdjustmentRead.unmarshalPath
  simp only [hc, if_false, apply_ite Prod.fst, apply_ite AdjustmentRead.TaxInCents, ite_self]

theorem adjustment_keeps_TotalInCents (sc : Scalars) (v : AdjustmentRead) (c : Node) (hc : c.name ≠ "total_in_cents") :
    (AdjustmentRead.unmarshalPath sc v c).1.TotalInCents = v.TotalInCents := by
  unfold AdjustmentRead.unmarshalPath
  simp only [hc, if_false, apply_ite Prod.fst, apply_ite AdjustmentRead.TotalInCents, ite_self]

theorem adjustment_keeps_Currency (sc : Scalars) (v : AdjustmentRead) (c : Node) (hc : c.name ≠ "currency") :
    (AdjustmentRead.unmarshalPath sc v c).1.Currency = v.Currency := by
  unfold AdjustmentRead.unmarshalPath
  simp only [hc, if_false, apply_ite Prod.fst, apply_ite AdjustmentRead.Currency, ite_self]

theorem adjustment_keeps_Taxable (sc : Scalars) (v : AdjustmentRead) (c : Node) (hc : c.name ≠ "taxable") :
    (AdjustmentRead.unmarshalPath sc v c).1.Taxable = v.Taxable := by
  unfold AdjustmentRead.unmarshalPath
  simp only [hc, if_false, apply_ite Prod.fst, apply_ite AdjustmentRead.Taxable, ite_self]

theorem adjustment_keeps_TaxCode (sc : Scalars) (v : AdjustmentRead) (c : Node) (hc : c.name ≠ "tax_code") :
    (AdjustmentRead.unmarshalPath sc v c).1.TaxCode = v.TaxCode := by
  unfold AdjustmentRead.unmarshalPath
  simp only [hc, if_false, apply_ite Prod.fst, apply_ite AdjustmentRead.TaxCode, ite_self]

theorem adjustment_keeps_TaxType (sc : Scalars) (v : AdjustmentRead) (c : Node) (hc : c.name ≠ "tax_type") :
    (AdjustmentRead.unmarshalPath sc v c).1.TaxType = v.TaxType := by
  unfold AdjustmentRead.unmarshalPath
  simp only [hc, if_false, apply_ite Prod.fst, apply_ite AdjustmentRead.TaxType, ite_self]

theorem adjustment_keeps_TaxRegion (sc : Scalars) (v : AdjustmentRead) (c : Node) (hc : c.name ≠ "tax_region") :
    (AdjustmentRead.unmarshalPath sc v c).1.TaxRegion = v.TaxRegion := by
  unfold AdjustmentRead.unmarshalPath
  simp only [hc, if_false, apply_ite Prod.fst, apply_ite AdjustmentRead.TaxRegion, ite_self]

theorem adjustment_keeps_TaxRate (sc : Scalars) (v : AdjustmentRead) (c : Node) (hc : c.name ≠ "tax_rate") :
    (AdjustmentRead.unmarshalPath sc v c).1.TaxRate = v.TaxRate := by
  unfold AdjustmentRead.unmarshalPath
  simp only [hc, if_false, apply_ite Prod.fst, apply_ite AdjustmentRead.TaxRate, ite_self]

theorem adjustment_keeps_TaxExempt (sc : Scalars) (v : AdjustmentRead) (c : Node) (hc : c.name ≠ "tax_exempt") :
    (AdjustmentRead.unmarshalPath sc v c).1.TaxExempt = v.TaxExempt := by
  unfold AdjustmentRead.unmarshalPath
  simp only [hc, if_false, apply_ite Prod.fst, apply_ite AdjustmentRead.TaxExempt, ite_self]

theorem adjustment_keeps_TaxDetails (sc : Scalars) (v : AdjustmentRead) (c : Node) (hc : c.name ≠ "tax_details") :
    (AdjustmentRead.unmarshalPath sc v c).1.TaxDetails = v.TaxDetails := by
  unfold AdjustmentRead.unmarshalPath
  simp only [hc, if_false, apply_ite Prod.fst, apply_ite AdjustmentRead.TaxDetails, ite_self]

theorem adjustment_keeps_StartDate (sc : Scalars) (v : AdjustmentRead) (c : Node) (hc : c.name ≠ "start_date") :
    (AdjustmentRead.unmarshalPath sc v c).1.StartDate = v.StartDate := by
  unfold AdjustmentRead.unmarshalPath
  simp only [hc, if_false, apply_ite Prod.fst, apply_ite AdjustmentRead.StartDate, ite_self]

theorem adjustment_keeps_EndDate (sc : Scalars) (v : AdjustmentRead) (c : Node) (hc : c.name ≠ "end_date") :
    (AdjustmentRead.unmarshalPath sc v c).1.EndDate = v.EndDate := by
  unfold AdjustmentRead.unmarshalPath
  simp only [hc, if_false, apply_ite Prod.fst, apply_ite AdjustmentRead.EndDate, ite_self]

theorem adjustment_keeps_CreatedAt (sc : Scalars) (v : AdjustmentRead) (c : Node) (hc : c.name ≠ "created_at") :
    (AdjustmentRead.unmarshalPath sc v c).1.CreatedAt = v.CreatedAt := by
  unfold AdjustmentRead.unmarshalPath
  simp only [hc, if_false, apply_ite Prod.fst, apply_ite AdjustmentRead.CreatedAt, ite_self]

theorem redemption_keeps_CouponCode (sc : Scalars) (v : RedemptionRead) (c : Node) (hc : c.name ≠ "coupon") :
    (RedemptionRead.unmarshalPath sc v c).1.CouponCode = v.CouponCode := by
  unfold RedemptionRead.unmarshalPath
  simp only [hc, if_false, apply_ite Prod.fst, apply_ite RedemptionRead.CouponCode, ite_self]

theorem redemption_keeps_AccountCode (sc : Scalars) (v : RedemptionRead) (c : Node) (hc : c.name ≠ "account") :
    (RedemptionRead.unmarshalPath sc v c).1.AccountCode = v.AccountCode := by
  unfold RedemptionRead.unmarshalPath
  simp only [hc, if_false, apply_ite Prod.fst, apply_ite RedemptionRead.AccountCode, ite_self]

theorem redemption_keeps_SingleUse (sc : Scalars) (v : RedemptionRead) (c : Node) (hc : c.name ≠ "single_use") :
    (RedemptionRead.unmarshalPath sc v c).1.SingleUse = v.SingleUse := by
  unfold RedemptionRead.unmarshalPath
  simp only [hc, if_false, apply_ite Prod.fst, apply_ite RedemptionRead.SingleUse, ite_self]

theorem redemption_keeps_TotalDiscountedInCents (sc : Scalars) (v : RedemptionRead) (c : Node) (hc : c.name ≠ "total_discounted_in_cents") :
    (RedemptionRead.unmarshalPath sc v c).1.TotalDiscountedInCents = v.TotalDiscountedInCents := by
  unfold RedemptionRead.unmarshalPath
  simp only [hc, if_false, apply_ite Prod.fst, apply_ite RedemptionRead.TotalDiscountedInCents, ite_self]

theorem redemption_keeps_Currency (sc : Scalars) (v : RedemptionRead) (c : Node) (hc : c.name ≠ "currency") :
    (RedemptionRead.unmarshalPath sc v c).1.Currency = v.Currency := by
  unfold RedemptionRead.unmarshalPath
  simp only [hc, if_false, apply_ite Prod.fst, apply_ite RedemptionRead.Currency, ite_self]

theorem redemption_keeps_State (sc : Scalars) (v : RedemptionRead) (c : Node) (hc : c.name ≠ "state") :
    (RedemptionRead.unmarshalPath sc v c).1.State = v.State := by
  unfold RedemptionRead.unmarshalPath
  simp only [hc, if_false, apply_ite Prod.fst, apply_ite RedemptionRead.State, ite_self]

theorem redemption_keeps_CreatedAt (sc : Scalars) (v : RedemptionRead) (c : Node) (hc : c.name ≠ "created_at") :
    (RedemptionRead.unmarshalPath sc v c).1.CreatedAt = v.CreatedAt := by
  unfold RedemptionRead.unmarshalPath
  simp only [hc, if_false, apply_ite Prod.fst, apply_ite RedemptionRead.CreatedAt, ite_self]

theorem adjustment_absent_is_zero (sc : Scalars) (recv : Adjustment) (start : Node)
    (hok : (Adjustment.UnmarshalXML sc recv start).2 = none) :
    ∀ row ∈ Adjustment.zeroWhenAbsent,
      (∀ c ∈ start.children, c.isElem = true → c.name ≠ row.1) →
      row.2 (Adjustment.UnmarshalXML sc recv start).1 := by
  unfold Adjustment.UnmarshalXML at hok ⊢
  unfold AdjustmentRead.DecodeElement at hok ⊢
  by_cases hn : start.name = "adjustment"
  · rw [if_pos hn] at hok ⊢
    rcases hd : unmarshalChildren (AdjustmentRead.unmarshalPath sc) start.children {} with ⟨v, _ | e⟩
    · intro row hrow habs
      simp only [Adjustment.zeroWhenAbsent, List.mem_cons, List.mem_singleton, List.mem_nil_iff,
        or_false] at hrow
      have hv : v = (unmarshalChildren (AdjustmentRead.unmarshalPath sc) start.children {}).1 := by
        rw [hd]
      rcases hrow with rfl | rfl | rfl | rfl | rfl | rfl | rfl | rfl | rfl | rfl | rfl | rfl | rfl | rfl | rfl | rfl | rfl | rfl | rfl | rfl | rfl | rfl | rfl | rfl | rfl
      · show v.AccountCode = _
        rw [hv]
        exact unmarshalChildren_keeps _ (fun w => w.AccountCode) _
          (fun w c hc he => adjustment_keeps_AccountCode sc w c (habs c hc he)) _
      · show v.InvoiceNumber = _
        rw [hv]
        exact unmarshalChildren_keeps _ (fun w => w.InvoiceNumber) _
          (fun w c hc he => adjustment_keeps_InvoiceNumber sc w c (habs c hc he)) _
      · show v.UUID = _
        rw [hv]
        exact unmarshalChildren_keeps _ (fun w => w.UUID) _
          (fun w c hc he => adjustment_keeps_UUID sc w c (habs c hc he)) _
      · show v.State = _
        rw [hv]
        exact unmarshalChildren_keeps _ (fun w => w.State) _
          (fun w c hc he => adjustment_keeps_State sc w c (habs c hc he)) _
      · show v.Description = _
        rw [hv]
        exact unmarshalChildren_keeps _ (fun w => w.Description) _
          (fun w c hc he => adjustment_keeps_Description sc w c (habs c hc he)) _
      · show v.AccountingCode = _
        rw [hv]
        exact unmarshalChildren_keeps _ (fun w => w.AccountingCode) _
          (fun w c hc he => adjustment_keeps_AccountingCode sc w c (habs c hc he)) _
      · show v.ProductCode = _
        rw [hv]
        exact unmarshalChildren_keeps _ (fun w => w.ProductCode) _
          (fun w c hc he => adjustment_keeps_ProductCode sc w c (habs c hc he)) _
      · show v.Origin = _
        rw [hv]
        exact unmarshalChildren_keeps _ (fun w => w.Origin) _
          (fun w c hc he => adjustment_keeps_Origin sc w c (habs c hc he)) _
      · show v.UnitAmountInCents = _
        rw [hv]
        exact unmarshalChildren_keeps _ (fun w => w.UnitAmountInCents) _
          (fun w c hc he => adjustment_keeps_UnitAmountInCents sc w c (habs c hc he)) _
      · show v.Quantity = _
        rw [hv]
        exact unmarshalChildren_keeps _ (fun w => w.Quantity) _
          (fun w c hc he => adjustment_keeps_Quantity sc w c (habs c hc he)) _
      · show v.OriginalAdjustmentUUID = _
        rw [hv]
        exact unmarshalChildren_keeps _ (fun w => w.OriginalAdjustmentUUID) _
          (fun w c hc he => adjustment_keeps_OriginalAdjustmentUUID sc w c (habs c hc he)) _
      · show v.DiscountInCents = _
        rw [hv]
        exact unmarshalChildren_keeps _ (fun w => w.DiscountInCents) _
          (fun w c hc he => adjustment_keeps_DiscountInCents sc w c (habs c hc he)) _
      · show v.TaxInCents = _
        rw [hv]
        exact unmarshalChildren_keeps _ (fun w => w.TaxInCents) _
          (fun w c hc he => adjustment_keeps_TaxInCents sc w c (habs c hc he)) _
      · show v.TotalInCents = _
        rw [hv]
        exact unmarshalChildren_keeps _ (fun w => w.TotalInCents) _
          (fun w c hc he => adjustment_keeps_TotalInCents sc w c (habs c hc he)) _
      · show v.Currency = _
        rw [hv]
        exact unmarshalChildren_keeps _ (fun w => w.Currency) _
          (fun w c hc he => adjustment_keeps_Currency sc w c (habs c hc he)) _
      · show v.Taxable = _
        rw [hv]
        exact unmarshalChildren_keeps _ (fun w => w.Taxable) _
          (fun w c hc he => adjustment_keeps_Taxable sc w c (habs c hc he)) _
      · show v.TaxCode = _
        rw [hv]
        exact unmarshalChildren_keeps _ (fun w => w.TaxCode) _
          (fun w c hc he => adjustment_keeps_TaxCode sc w c (habs c hc he)) _
      · show v.TaxType = _
        rw [hv]
        exact unmarshalChildren_keeps _ (fun w => w.TaxType) _
          (fun w c hc he => adjustment_keeps_TaxType sc w c (habs c hc he)) _
      · show v.TaxRegion = _
        rw [hv]
        exact unmarshalChildren_keeps _ (fun w => w.TaxRegion) _
          (fun w c hc he => adjustment_keeps_TaxRegion sc w c (habs c hc he)) _
      · show v.TaxRate = _
        rw [hv]
        exact unmarshalChildren_keeps _ (fun w => w.TaxRate) _
          (fun w c hc he => adjustment_keeps_TaxRate sc w c (habs c hc he)) _
      · show v.TaxExempt = _
        rw [hv]
        exact unmarshalChildren_keeps _ (fun w => w.TaxExempt) _
          (fun w c hc he => adjustment_keeps_TaxExempt sc w c (habs c hc he)) _
      · show v.TaxDetails = _
        rw [hv]
        exact unmarshalChildren_keeps _ (fun w => w.TaxDetails) _
          (fun w c hc he => adjustment_keeps_TaxDetails sc w c (habs c hc he)) _
      · show v.StartDate = _
        rw [hv]
        exact unmarshalChildren_keeps _ (fun w => w.StartDate) _
          (fun w c hc he => adjustment_keeps_StartDate sc w c (habs c hc he)) _
      · show v.EndDate = _
        rw [hv]
        exact unmarshalChildren_keeps _ (fun w => w.EndDate) _
          (fun w c hc he => adjustment_keeps_EndDate sc w c (habs c hc he)) _
      · show v.CreatedAt = _
        rw [hv]
        exact unmarshalChildren_keeps _ (fun w => w.CreatedAt) _
          (fun w c hc he => adjustment_keeps_CreatedAt sc w c (habs c hc he)) _
    · rw [hd] at hok
      simp at hok
  · rw [if_neg hn] at hok
    simp at hok

theorem redemption_absent_is_zero (sc : Scalars) (recv : Redemption) (start : Node)
    (hok : (Redemption.UnmarshalXML sc recv start).2 = none) :
    ∀ row ∈ Redemption.zeroWhenAbsent,
      (∀ c ∈ start.children, c.isElem = true → c.name ≠ row.1) →
      row.2 (Redemption.UnmarshalXML sc recv start).1 := by
  unfold Redemption.UnmarshalXML at hok ⊢
  unfold RedemptionRead.DecodeElement at hok ⊢
  by_cases hn : start.name = "redemption"
  · rw [if_pos hn] at hok ⊢
    rcases hd : unmarshalChildren (RedemptionRead.unmarshalPath sc) start.children {} with ⟨v, _ | e⟩
    · intro row hrow habs
      simp only [Redemption.zeroWhenAbsent, List.mem_cons, List.mem_singleton, List.mem_nil_iff,
        or_false] at hrow
      have hv : v = (unmarshalChildren (RedemptionRead.unmarshalPath sc) start.children {}).1 := by
        rw [hd]
      rcases hrow with rfl | rfl | rfl | rfl | rfl | rfl | rfl
      · show v.CouponCode = _
        rw [hv]
        exact unmarshalChildren_keeps _ (fun w => w.CouponCode) _
          (fun w c hc he => redemption_keeps_CouponCode sc w c (habs c hc he)) _
      · show v.AccountCode = _
        rw [hv]
        exact unmarshalChildren_keeps _ (fun w => w.AccountCode) _
          (fun w c hc he => redemption_keeps_AccountCode sc w c (habs c hc he)) _
      · show v.SingleUse = _
        rw [hv]
        exact unmarshalChildren_keeps _ (fun w => w.SingleUse) _
          (fun w c hc he => redemption_keeps_SingleUse sc w c (habs c hc he)) _
      · show v.TotalDiscountedInCents = _
        rw [hv]
        exact unmarshalChildren_keeps _ (fun w => w.TotalDiscountedInCents) _
          (fun w c hc he => redemption_keeps_TotalDiscountedInCents sc w c (habs c hc he)) _
      · show v.Currency = _
        rw [hv]
        exact unmarshalChildren_keeps _ (fun w => w.Currency) _
          (fun w c hc he => redemption_keeps_Currency sc w c (habs c hc he)) _
      · show v.State = _
        rw [hv]
        exact unmarshalChildren_keeps _ (fun w => w.State) _
          (fun w c hc he => redemption_keeps_State sc w c (habs c hc he)) _
      · show v.CreatedAt = _
        rw [hv]
        exact unmarshalChildren_keeps _ (fun w => w.CreatedAt) _
          (fun w c hc he => redemption_keeps_CreatedAt sc w c (habs c hc he)) _
    · rw [hd] at hok
      simp at hok
  · rw [if_neg hn] at hok
    simp at hok

/-- C10: `Adjustment.UnmarshalXML` and `Redemption.UnmarshalXML` replace the receiver
atomically.  Whether the call fails does not depend on the receiver; when the
element decode fails the receiver is left exactly as it was; when it succeeds the
receiver after the call is the same whatever it held before (decoding into a
populated value gives what decoding into a zero value gives), and every field whose
element is absent from the input holds its zero value. -/
theorem unmarshal_replaces_receiver (sc : Scalars) (start : Node) (a b : Adjustment)
    (r s : Redemption) :
    ((Adjustment.UnmarshalXML sc a start).2 = (Adjustment.UnmarshalXML sc b start).2) ∧
      ((Adjustment.UnmarshalXML sc a start).2 ≠ none →
        (Adjustment.UnmarshalXML sc a start).1 = a) ∧
      ((Adjustment.UnmarshalXML sc a start).2 = none →
        (Adjustment.UnmarshalXML sc a start).1 = (Adjustment.UnmarshalXML sc b start).1 ∧
        (Adjustment.UnmarshalXML sc a start).1 = (Adjustment.UnmarshalXML sc {} start).1 ∧
        ∀ row ∈ Adjustment.zeroWhenAbsent,
          (∀ c ∈ start.children, c.isElem = true → c.name ≠ row.1) →
          row.2 (Adjustment.UnmarshalXML sc a start).1) ∧
      ((Redemption.UnmarshalXML sc r start).2 = (Redemption.UnmarshalXML sc s start).2) ∧
      ((Redemption.UnmarshalXML sc r start).2 ≠ none →
        (Redemption.UnmarshalXML sc r start).1 = r) ∧
      ((Redemption.UnmarshalXML sc r start).2 = none →
        (Redemption.UnmarshalXML sc r start).1 = (Redemption.UnmarshalXML sc s start).1 ∧
        (Redemption.UnmarshalXML sc r start).1 = (Redemption.UnmarshalXML sc {} start).1 ∧
        ∀ row ∈ Redemption.zeroWhenAbsent,
          (∀ c ∈ start.children, c.isElem = true → c.name ≠ row.1) →
          row.2 (Redemption.UnmarshalXML sc r start).1) := by
  have hA : ∀ x y : Adjustment,
      (Adjustment.UnmarshalXML sc x start).2 = (Adjustment.UnmarshalXML sc y start).2 ∧
      ((Adjustment.UnmarshalXML sc x start).2 = none →
        (Adjustment.UnmarshalXML sc x start).1 = (Adjustment.UnmarshalXML sc y start).1) := by
    intro x y
    unfold Adjustment.UnmarshalXML
    rcases AdjustmentRead.DecodeElement sc start with ⟨v, _ | e⟩
    · exact ⟨rfl, fun _ => rfl⟩
    · exact ⟨rfl, fun h => by cases h⟩
  have hR : ∀ x y : Redemption,
      (Redemption.UnmarshalXML sc x start).2 = (Redemption.UnmarshalXML sc y start).2 ∧
      ((Redemption.UnmarshalXML sc x start).2 = none →
        (Redemption.UnmarshalXML sc x start).1 = (Redemption.UnmarshalXML sc y start).1) := by
    intro x y
    unfold Redemption.UnmarshalXML
    rcases RedemptionRead.DecodeElement sc start with ⟨v, _ | e⟩
    · exact ⟨rfl, fun _ => rfl⟩
    · exact ⟨rfl, fun h => by cases h⟩
  refine ⟨(hA a b).1, ?_, ?_, (hR r s).1, ?_, ?_⟩
  · unfold Adjustment.UnmarshalXML
    rcases AdjustmentRead.DecodeElement sc start with ⟨v, _ | e⟩
    · intro h; exact absurd rfl h
    · intro _; rfl
  · intro hok
    exact ⟨(hA a b).2 hok, (hA a {}).2 hok, adjustment_absent_is_zero sc a start hok⟩
  · unfold Redemption.UnmarshalXML
    rcases RedemptionRead.DecodeElement sc start with ⟨v, _ | e⟩
    · intro h; exact absurd rfl h
    · intro _; rfl
  · intro hok
    exact ⟨(hR r s).2 hok, (hR r {}).2 hok, redemption_absent_is_zero sc r start hok⟩

theorem unmarshal_replaces_receiver_witness :
    (Adjustment.UnmarshalXML noScalars sampleInvoiced
        (.elem "adjustment" [] [.elem "quantity" [] [.text "one"]])).2 ≠ none ∧
      (Adjustment.UnmarshalXML noScalars sampleInvoiced
        (.elem "adjustment" [] [.elem "quantity" [] [.text "one"]])).1 = sampleInvoiced ∧
      (Redemption.UnmarshalXML noScalars sampleRedemption
        (.elem "adjustment" [] [.elem "quantity" [] [.text "one"]])).1 = sampleRedemption ∧
      (Adjustment.UnmarshalXML noScalars sampleInvoiced
        (.elem "adjustment" [] [.elem "uuid" [] [.text "abc"]])).2 = none ∧
      (Adjustment.UnmarshalXML noScalars sampleInvoiced
        (.elem "adjustment" [] [.elem "uuid" [] [.text "abc"]])).1 =
        (Adjustment.UnmarshalXML noScalars {}
          (.elem "adjustment" [] [.elem "uuid" [] [.text "abc"]])).1 :=
  have h := unmarshal_replaces_receiver noScalars
    (.elem "adjustment" [] [.elem "quantity" [] [.text "one"]])
    sampleInvoiced {} sampleRedemption {}
  have h2 := unmarshal_replaces_receiver noScalars
    (.elem "adjustment" [] [.elem "uuid" [] [.text "abc"]])
    sampleInvoiced {} sampleRedemption {}
  ⟨by decide, h.2.1 (by decide), h.2.2.2.2.1 (by decide), by decide,
    (h2.2.2.1 (by decide)).2.1⟩


/-! ## The href decoder -/

theorem afterScheme_none (cs : List Char) (h : '/' ∉ cs) : afterScheme cs = none := by
  induction cs with
  | nil => rfl
  | cons c t ih =>
    have ht : '/' ∉ t := fun hm => h (List.mem_cons_of_mem _ hm)
    unfold afterScheme
    have hno : ¬ (c = ':' ∧ t.take 2 = ['/', '/']) := by
      rintro ⟨_, h2⟩
      cases t with
      | nil => simp at h2
      | cons y t2 =>
        cases t2 with
        | nil => simp at h2
        | cons z t3 =>
          simp only [List.take_succ_cons, List.take_zero, List.cons.injEq] at h2
          exact ht (by rw [h2.1]; exact List.mem_cons_self _ _)
    rw [if_neg hno]
    exact ih ht

theorem afterScheme_keeps_tail (code : List Char) (hns : '/' ∉ code) :
    ∀ h : List Char, (∀ h0, h ≠ h0 ++ [':', '/']) →
      afterScheme (h ++ '/' :: code) = none ∨
        ∃ r, afterScheme (h ++ '/' :: code) = some (r ++ '/' :: code) := by
  intro h
  induction h with
  | nil =>
    intro _
    left
    simp only [List.nil_append]
    unfold afterScheme
    have hno : ¬ ('/' = ':' ∧ code.take 2 = ['/', '/']) := by
      rintro ⟨h1, _⟩
      exact absurd h1 (by decide)
    rw [if_neg hno]
    exact afterScheme_none code hns
  | cons x t ih =>
    intro hsuf
    have hsuf2 : ∀ h0, t ≠ h0 ++ [':', '/'] := by
      intro h0 he
      exact hsuf (x :: h0) (by rw [he]; rfl)
    simp only [List.cons_append]
    unfold afterScheme
    by_cases hm : x = ':' ∧ (t ++ '/' :: code).take 2 = ['/', '/']
    · rw [if_pos hm]
      right
      obtain ⟨hx, h2⟩ := hm
      cases t with
      | nil =>
        exfalso
        cases code with
        | nil => simp at h2
        | cons z t3 =>
          simp only [List.nil_append, List.take_succ_cons, List.take_zero,
            List.cons.injEq] at h2
          exact hns (by rw [h2.2.1]; exact List.mem_cons_self _ _)
      | cons y t2 =>
        cases t2 with
        | nil =>
          exfalso
          simp only [List.cons_append, List.nil_append, List.take_succ_cons, List.take_zero,
            List.cons.injEq] at h2
          exact hsuf [] (by rw [hx, h2.1]; rfl)
        | cons z t3 =>
          exact ⟨t3, by simp⟩
    · rw [if_neg hm]
      exact ih hsuf2

theorem dropWhile_keeps_tail (code : List Char) :
    ∀ r : List Char, ∃ q, (r ++ '/' :: code).dropWhile (fun c => c != '/') = q ++ '/' :: code := by
  intro r
  induction r with
  | nil => exact ⟨[], by simp [List.dropWhile]⟩
  | cons x t ih =>
    by_cases hx : x = '/'
    · exact ⟨x :: t, by simp [List.dropWhile, hx]⟩
    · obtain ⟨q, hq⟩ := ih
      have hb : (x != '/') = true := by simp [hx]
      refine ⟨q, ?_⟩
      rw [List.cons_append, List.dropWhile_cons, if_pos hb]
      exact hq

theorem urlPath_keeps_tail (h code : List Char) (hns : '/' ∉ code)
    (hsuf : ∀ h0, h ≠ h0 ++ [':', '/']) :
    ∃ q, urlPath (h ++ '/' :: code) = q ++ '/' :: code := by
  unfold urlPath
  rcases afterScheme_keeps_tail code hns h hsuf with hnone | ⟨r, hr⟩
  · rw [hnone]; exact ⟨h, rfl⟩
  · rw [hr]; exact dropWhile_keeps_tail code r

theorem splitSlash_ne_nil (cs : List Char) : splitSlash cs ≠ [] := by
  cases cs with
  | nil => simp [splitSlash]
  | cons c t =>
    unfold splitSlash
    split
    · simp
    · split <;> simp

theorem splitSlash_no_slash (code : List Char) (hns : '/' ∉ code) : splitSlash code = [code] := by
  induction code with
  | nil => rfl
  | cons c t ih =>
    have hc : c ≠ '/' := fun he => hns (by rw [he]; exact List.mem_cons_self _ _)
    have ht : '/' ∉ t := fun hm => hns (List.mem_cons_of_mem _ hm)
    unfold splitSlash
    rw [if_neg hc, ih ht]

theorem splitSlash_append (code : List Char) (hns : '/' ∉ code) :
    ∀ q : List Char, splitSlash (q ++ '/' :: code) = splitSlash q ++ [code] := by
  intro q
  induction q with
  | nil =>
    simp only [List.nil_append]
    unfold splitSlash
    simp [splitSlash_no_slash code hns, splitSlash]
  | cons x t ih =>
    simp only [List.cons_append]
    unfold splitSlash
    by_cases hx : x = '/'
    · rw [if_pos hx, if_pos hx, ih]; rfl
    · rw [if_neg hx, if_neg hx, ih]
      rcases hs : splitSlash t with _ | ⟨s, ss⟩
      · exact absurd hs (splitSlash_ne_nil t)
      · rfl

theorem lastSegment_of_tail (h code : List Char) (hne : code ≠ []) (hns : '/' ∉ code)
    (hsuf : ∀ h0, h ≠ h0 ++ [':', '/']) :
    lastSegment (String.mk (h ++ '/' :: code)) = some (String.mk code) := by
  unfold lastSegment pathSegments
  obtain ⟨q, hq⟩ := urlPath_keeps_tail h code hns hsuf
  simp only [hq, splitSlash_append code hns q]
  have hf : ([code].filter fun s => !s.isEmpty) = [code] := by
    cases code with
    | nil => exact absurd rfl hne
    | cons c t => rfl
  rw [List.filter_append, hf, List.getLast?_append]
  simp

theorem lastSegment_under (p dir code : String) (hdir : ∃ d, dir.data = d ++ ['s'])
    (hne : code ≠ "") (hns : '/' ∉ code.data) :
    lastSegment (p ++ "/" ++ dir ++ "/" ++ code) = some code := by
  obtain ⟨d, hd⟩ := hdir
  have hdata : (p ++ "/" ++ dir ++ "/" ++ code).data
      = (p.data ++ '/' :: dir.data) ++ '/' :: code.data := by
    simp [String.data_append]
  have hstr : p ++ "/" ++ dir ++ "/" ++ code
      = String.mk ((p.data ++ '/' :: dir.data) ++ '/' :: code.data) := by
    apply String.ext
    exact hdata
  rw [hstr, lastSegment_of_tail]
  · intro hc
    apply hne
    apply String.ext
    exact hc
  · exact hns
  · intro h0 he
    rw [hd] at he
    have h1 : (p.data ++ '/' :: (d ++ ['s'])).getLast? = some 's' := by
      rw [show p.data ++ '/' :: (d ++ ['s']) = (p.data ++ '/' :: d) ++ ['s'] by simp]
      exact List.getLast?_concat _
    have h2 : (h0 ++ [':', '/']).getLast? = some '/' := by
      rw [show h0 ++ [':', '/'] = (h0 ++ [':']) ++ ['/'] by simp]
      exact List.getLast?_concat _
    rw [he, h2] at h1
    exact absurd h1 (by decide)

theorem unmarshalChildren_sets {σ β : Type} (f : σ → Node → σ × Option Error) (p : σ → β)
    (target : Node → Prop) (val : β) (cs : List Node)
    (hkeep : ∀ v c, c ∈ cs → c.isElem = true → ¬ target c → p (f v c).1 = p v)
    (hset : ∀ v c, c ∈ cs → c.isElem = true → target c → p (f v c).1 = val) :
    ∀ v, (unmarshalChildren f cs v).2 = none →
      ((∃ c ∈ cs, c.isElem = true ∧ target c) ∨ p v = val) →
      p (unmarshalChildren f cs v).1 = val := by
  induction cs with
  | nil =>
    intro v _ h
    rcases h with ⟨c, hc, _⟩ | h
    · cases hc
    · exact h
  | cons c cs ih =>
    have ih2 := ih (fun v d hd => hkeep v d (List.mem_cons_of_mem _ hd))
      (fun v d hd => hset v d (List.mem_cons_of_mem _ hd))
    intro v
    unfold unmarshalChildren
    by_cases he : c.isElem = true
    · rw [if_pos he]
      rcases hf : f v c with ⟨v1, _ | e⟩
      · simp only
        intro hok h
        apply ih2 v1 hok
        by_cases ht : target c
        · right
          have := hset v c (List.mem_cons_self _ _) he ht
          rw [hf] at this
          exact this
        · rcases h with ⟨d, hd, hde, hdt⟩ | h
          · rcases List.mem_cons.mp hd with rfl | hd
            · exact absurd hdt ht
            · exact Or.inl ⟨d, hd, hde, hdt⟩
          · right
            have := hkeep v c (List.mem_cons_self _ _) he ht
            rw [hf] at this
            rw [← h]
            exact this
      · simp only
        intro hok
        cases hok
    · rw [if_neg he]
      intro hok h
      apply ih2 v hok
      rcases h with ⟨d, hd, hde, hdt⟩ | h
      · rcases List.mem_cons.mp hd with rfl | hd
        · exact absurd hde he
        · exact Or.inl ⟨d, hd, hde, hdt⟩
      · exact Or.inr h

theorem hrefString_of_lastSegment (old : hrefString) (c : Node) (href seg : String)
    (hattr : findAttr "href" c.attrs = some href) (hseg : lastSegment href = some seg) :
    hrefString.UnmarshalXML old c = (seg, none) := by
  simp [hrefString.UnmarshalXML, hattr, hseg]

theorem hrefInt_of_lastSegment (old : hrefInt) (c : Node) (href : String) (n : Int)
    (hn : isInt64 n) (hattr : findAttr "href" c.attrs = some href)
    (hseg : lastSegment href = some (formatInt n)) :
    hrefInt.UnmarshalXML old c = (n, none) := by
  simp [hrefInt.UnmarshalXML, hattr, hseg, parseInt_formatInt n hn]

theorem href_no_segments (c : Node) (href : String)
    (hattr : findAttr "href" c.attrs = some href) (hseg : pathSegments href = []) :
    (∀ old, hrefString.UnmarshalXML old c = (old, some .ParseError)) ∧
      (∀ old, hrefInt.UnmarshalXML old c = (old, some .ParseError)) := by
  have hl : lastSegment href = none := by simp [lastSegment, hseg]
  constructor
  · intro old; simp [hrefString.UnmarshalXML, hattr, hl]
  · intro old; simp [hrefInt.UnmarshalXML, hattr, hl]

theorem formatInt_no_slash (n : Int) : '/' ∉ (formatInt n).data := by
  intro h
  rcases formatInt_chars n _ h with h1 | ⟨d, hd, h1⟩
  · exact absurd h1 (by decide)
  · revert h1
    interval_cases d <;> decide

theorem under_accounts (p code : String) :
    p ++ "/accounts/" ++ code = p ++ "/" ++ "accounts" ++ "/" ++ code := by
  apply String.ext; simp

theorem under_invoices (p code : String) :
    p ++ "/invoices/" ++ code = p ++ "/" ++ "invoices" ++ "/" ++ code := by
  apply String.ext; simp

theorem under_coupons (p code : String) :
    p ++ "/coupons/" ++ code = p ++ "/" ++ "coupons" ++ "/" ++ code := by
  apply String.ext; simp

theorem lastSegment_accounts (p code : String) (hne : code ≠ "") (hns : '/' ∉ code.data) :
    lastSegment (p ++ "/accounts/" ++ code) = some code := by
  rw [under_accounts]
  exact lastSegment_under p "accounts" code ⟨"account".data, rfl⟩ hne hns

theorem lastSegment_coupons (p code : String) (hne : code ≠ "") (hns : '/' ∉ code.data) :
    lastSegment (p ++ "/coupons/" ++ code) = some code := by
  rw [under_coupons]
  exact lastSegment_under p "coupons" code ⟨"coupon".data, rfl⟩ hne hns

theorem lastSegment_invoices (p : String) (n : Int) :
    lastSegment (p ++ "/invoices/" ++ formatInt n) = some (formatInt n) := by
  rw [under_invoices]
  exact lastSegment_under p "invoices" _ ⟨"invoice".data, rfl⟩ (formatInt_ne_empty n)
    (formatInt_no_slash n)

theorem path_account (sc : Scalars) (v : AdjustmentRead) (c : Node) (h : c.name = "account") :
    AdjustmentRead.unmarshalPath sc v c =
      ({ v with AccountCode := (hrefString.UnmarshalXML v.AccountCode c).1 },
        (hrefString.UnmarshalXML v.AccountCode c).2) := by
  unfold AdjustmentRead.unmarshalPath
  rw [if_pos h]

theorem path_invoice (sc : Scalars) (v : AdjustmentRead) (c : Node) (h : c.name = "invoice") :
    AdjustmentRead.unmarshalPath sc v c =
      ({ v with InvoiceNumber := (hrefInt.UnmarshalXML v.InvoiceNumber c).1 },
        (hrefInt.UnmarshalXML v.InvoiceNumber c).2) := by
  unfold AdjustmentRead.unmarshalPath
  have h1 : ¬ c.name = "account" := by rw [h]; decide
  rw [if_neg h1, if_pos h]

theorem redemption_path_coupon (sc : Scalars) (v : RedemptionRead) (c : Node)
    (h : c.name = "coupon") :
    RedemptionRead.unmarshalPath sc v c =
      ({ v with CouponCode := (hrefString.UnmarshalXML v.CouponCode c).1 },
        (hrefString.UnmarshalXML v.CouponCode c).2) := by
  unfold RedemptionRead.unmarshalPath
  rw [if_pos h]

theorem redemption_path_account (sc : Scalars) (v : RedemptionRead) (c : Node)
    (h : c.name = "account") :
    RedemptionRead.unmarshalPath sc v c =
      ({ v with AccountCode := (hrefString.UnmarshalXML v.AccountCode c).1 },
        (hrefString.UnmarshalXML v.AccountCode c).2) := by
  unfold RedemptionRead.unmarshalPath
  have h1 : ¬ c.name = "coupon" := by rw [h]; decide
  rw [if_neg h1, if_pos h]

theorem adjustment_AccountCode_of_href (sc : Scalars) (recv : Adjustment) (start : Node)
    (code : String)
    (hok : (Adjustment.UnmarshalXML sc recv start).2 = none)
    (hex : ∃ c ∈ start.children, c.isElem = true ∧ c.name = "account")
    (hall : ∀ c ∈ start.children, c.isElem = true → c.name = "account" →
      ∃ href, findAttr "href" c.attrs = some href ∧ lastSegment href = some code) :
    (Adjustment.UnmarshalXML sc recv start).1.AccountCode = code := by
  unfold Adjustment.UnmarshalXML at hok ⊢
  unfold AdjustmentRead.DecodeElement at hok ⊢
  by_cases hn : start.name = "adjustment"
  · rw [if_pos hn] at hok ⊢
    rcases hd : unmarshalChildren (AdjustmentRead.unmarshalPath sc) start.children {}
      with ⟨v, _ | e⟩
    · show v.AccountCode = code
      have hv : v = (unmarshalChildren (AdjustmentRead.unmarshalPath sc) start.children {}).1 := by
        rw [hd]
      rw [hv]
      exact unmarshalChildren_sets (AdjustmentRead.unmarshalPath sc) (fun w => w.AccountCode)
        (fun c => c.name = "account") code start.children
        (fun w c _ _ ht => adjustment_keeps_AccountCode sc w c ht)
        (fun w c hc he ht => by
          obtain ⟨href, h1, h2⟩ := hall c hc he ht
          rw [path_account sc w c ht, hrefString_of_lastSegment _ c href code h1 h2])
        {} (by rw [hd]) (Or.inl hex)
    · rw [hd] at hok
      simp at hok
  · rw [if_neg hn] at hok
    simp at hok

theorem adjustment_InvoiceNumber_of_href (sc : Scalars) (recv : Adjustment) (start : Node)
    (n : Int) (hn64 : isInt64 n)
    (hok : (Adjustment.UnmarshalXML sc recv start).2 = none)
    (hex : ∃ c ∈ start.children, c.isElem = true ∧ c.name = "invoice")
    (hall : ∀ c ∈ start.children, c.isElem = true → c.name = "invoice" →
      ∃ href, findAttr "href" c.attrs = some href ∧ lastSegment href = some (formatInt n)) :
    (Adjustment.UnmarshalXML sc recv start).1.InvoiceNumber = n := by
  unfold Adjustment.UnmarshalXML at hok ⊢
  unfold AdjustmentRead.DecodeElement at hok ⊢
  by_cases hn : start.name = "adjustment"
  · rw [if_pos hn] at hok ⊢
    rcases hd : unmarshalChildren (AdjustmentRead.unmarshalPath sc) start.children {}
      with ⟨v, _ | e⟩
    · show v.InvoiceNumber = n
      have hv : v = (unmarshalChildren (AdjustmentRead.unmarshalPath sc) start.children {}).1 := by
        rw [hd]
      rw [hv]
      exact unmarshalChildren_sets (AdjustmentRead.unmarshalPath sc) (fun w => w.InvoiceNumber)
        (fun c => c.name = "invoice") n start.children
        (fun w c _ _ ht => adjustment_keeps_InvoiceNumber sc w c ht)
        (fun w c hc he ht => by
          obtain ⟨href, h1, h2⟩ := hall c hc he ht
          rw [path_invoice sc w c ht, hrefInt_of_lastSegment _ c href n hn64 h1 h2])
        {} (by rw [hd]) (Or.inl hex)
    · rw [hd] at hok
      simp at hok
  · rw [if_neg hn] at hok
    simp at hok

theorem redemption_CouponCode_of_href (sc : Scalars) (recv : Redemption) (start : Node)
    (code : String)
    (hok : (Redemption.UnmarshalXML sc recv start).2 = none)
    (hex : ∃ c ∈ start.children, c.isElem = true ∧ c.name = "coupon")
    (hall : ∀ c ∈ start.children, c.isElem = true → c.name = "coupon" →
      ∃ href, findAttr "href" c.attrs = some href ∧ lastSegment href = some code) :
    (Redemption.UnmarshalXML sc recv start).1.CouponCode = code := by
  unfold Redemption.UnmarshalXML at hok ⊢
  unfold RedemptionRead.DecodeElement at hok ⊢
  by_cases hn : start.name = "redemption"
  · rw [if_pos hn] at hok ⊢
    rcases hd : unmarshalChildren (RedemptionRead.unmarshalPath sc) start.children {}
      with ⟨v, _ | e⟩
    · show v.CouponCode = code
      have hv : v = (unmarshalChildren (RedemptionRead.unmarshalPath sc) start.children {}).1 := by
        rw [hd]
      rw [hv]
      exact unmarshalChildren_sets (RedemptionRead.unmarshalPath sc) (fun w => w.CouponCode)
        (fun c => c.name = "coupon") code start.children
        (fun w c _ _ ht => redemption_keeps_CouponCode sc w c ht)
        (fun w c hc he ht => by
          obtain ⟨href, h1, h2⟩ := hall c hc he ht
          rw [redemption_path_coupon sc w c ht, hrefString_of_lastSegment _ c href code h1 h2])
        {} (by rw [hd]) (Or.inl hex)
    · rw [hd] at hok
      simp at hok
  · rw [if_neg hn] at hok
    simp at hok

theorem redemption_AccountCode_of_href (sc : Scalars) (recv : Redemption) (start : Node)
    (code : String)
    (hok : (Redemption.UnmarshalXML sc recv start).2 = none)
    (hex : ∃ c ∈ start.children, c.isElem = true ∧ c.name = "account")
    (hall : ∀ c ∈ start.children, c.isElem = true → c.name = "account" →
      ∃ href, findAttr "href" c.attrs = some href ∧ lastSegment href = some code) :
    (Redemption.UnmarshalXML sc recv start).1.AccountCode = code := by
  unfold Redemption.UnmarshalXML at hok ⊢
  unfold RedemptionRead.DecodeElement at hok ⊢
  by_cases hn : start.name = "redemption"
  · rw [if_pos hn] at hok ⊢
    rcases hd : unmarshalChildren (RedemptionRead.unmarshalPath sc) start.children {}
      with ⟨v, _ | e⟩
    · show v.AccountCode = code
      have hv : v = (unmarshalChildren (RedemptionRead.unmarshalPath sc) start.children {}).1 := by
        rw [hd]
      rw [hv]
      exact unmarshalChildren_sets (RedemptionRead.unmarshalPath sc) (fun w => w.AccountCode)
        (fun c => c.name = "account") code start.children
        (fun w c _ _ ht => redemption_keeps_AccountCode sc w c ht)
        (fun w c hc he ht => by
          obtain ⟨href, h1, h2⟩ := hall c hc he ht
          rw [redemption_path_account sc w c ht, hrefString_of_lastSegment _ c href code h1 h2])
        {} (by rw [hd]) (Or.inl hex)
    · rw [hd] at hok
      simp at hok
  · rw [if_neg hn] at hok
    simp at hok

theorem adjustment_fails_at_child (sc : Scalars) (recv : Adjustment) (attrs : List Attr)
    (cs1 cs2 : List Node) (c : Node) (e : Error) (he : c.isElem = true)
    (hpre : (unmarshalChildren (AdjustmentRead.unmarshalPath sc) cs1 {}).2 = none)
    (hc : ∀ v, (AdjustmentRead.unmarshalPath sc v c).2 = some e) :
    Adjustment.UnmarshalXML sc recv (.elem "adjustment" attrs (cs1 ++ c :: cs2))
      = (recv, some e) := by
  unfold Adjustment.UnmarshalXML AdjustmentRead.DecodeElement
  simp only [Node.name, Node.children, if_true, unmarshalChildren_append]
  rcases h1 : unmarshalChildren (AdjustmentRead.unmarshalPath sc) cs1 {} with ⟨v1, _ | e1⟩
  · simp only [unmarshalChildren, he, if_true]
    have := hc v1
    rcases h2 : AdjustmentRead.unmarshalPath sc v1 c with ⟨v2, _ | e2⟩
    · rw [h2] at this; cases this
    · rw [h2] at this
      simp only [Option.some.injEq] at this
      rw [this]
  · rw [h1] at hpre
    cases hpre

theorem redemption_fails_at_child (sc : Scalars) (recv : Redemption) (attrs : List Attr)
    (cs1 cs2 : List Node) (c : Node) (e : Error) (he : c.isElem = true)
    (hpre : (unmarshalChildren (RedemptionRead.unmarshalPath sc) cs1 {}).2 = none)
    (hc : ∀ v, (RedemptionRead.unmarshalPath sc v c).2 = some e) :
    Redemption.UnmarshalXML sc recv (.elem "redemption" attrs (cs1 ++ c :: cs2))
      = (recv, some e) := by
  unfold Redemption.UnmarshalXML RedemptionRead.DecodeElement
  simp only [Node.name, Node.children, if_true, unmarshalChildren_append]
  rcases h1 : unmarshalChildren (RedemptionRead.unmarshalPath sc) cs1 {} with ⟨v1, _ | e1⟩
  · simp only [unmarshalChildren, he, if_true]
    have := hc v1
    rcases h2 : RedemptionRead.unmarshalPath sc v1 c with ⟨v2, _ | e2⟩
    · rw [h2] at this; cases this
    · rw [h2] at this
      simp only [Option.some.injEq] at this
      rw [this]
  · rw [h1] at hpre
    cases hpre

/-- C8: href decoding.  An element whose `href` ends in `/accounts/<code>` (or
`/coupons/<code>`) decodes to the string `<code>`, and one whose `href` ends in
`/invoices/<n>` decodes to the integer `<n>`, `<code>` being a path segment (not
empty, no slash).  Hence for every `adjustment` element that decodes and whose
`account` and `invoice` children carry such hrefs, `Adjustment.UnmarshalXML` yields
AccountCode = `<code>` and InvoiceNumber = `<n>`, and likewise
`Redemption.UnmarshalXML` yields CouponCode and AccountCode from the `coupon` and
`account` hrefs.  The spec's example decodes to "abc123".  An href with no path
segments makes the href decoders fail with a ParseError, and with them the decoding
of the adjustment or redemption that holds the element. -/
theorem href_fields_are_final_segments (sc : Scalars) :
    (∀ (old : hrefString) (c : Node) (p code : String), code ≠ "" → '/' ∉ code.data →
      (findAttr "href" c.attrs = some (p ++ "/accounts/" ++ code) →
        hrefString.UnmarshalXML old c = (code, none)) ∧
      (findAttr "href" c.attrs = some (p ++ "/coupons/" ++ code) →
        hrefString.UnmarshalXML old c = (code, none))) ∧
    (∀ (old : hrefInt) (c : Node) (p : String) (n : Int), isInt64 n →
      findAttr "href" c.attrs = some (p ++ "/invoices/" ++ formatInt n) →
      hrefInt.UnmarshalXML old c = (n, none)) ∧
    (∀ (recv : Adjustment) (start : Node) (p q code : String) (n : Int),
      code ≠ "" → '/' ∉ code.data → isInt64 n →
      (Adjustment.UnmarshalXML sc recv start).2 = none →
      (∃ c ∈ start.children, c.isElem = true ∧ c.name = "account") →
      (∀ c ∈ start.children, c.isElem = true → c.name = "account" →
        findAttr "href" c.attrs = some (p ++ "/accounts/" ++ code)) →
      (∃ c ∈ start.children, c.isElem = true ∧ c.name = "invoice") →
      (∀ c ∈ start.children, c.isElem = true → c.name = "invoice" →
        findAttr "href" c.attrs = some (q ++ "/invoices/" ++ formatInt n)) →
      (Adjustment.UnmarshalXML sc recv start).1.AccountCode = code ∧
      (Adjustment.UnmarshalXML sc recv start).1.InvoiceNumber = n) ∧
    (∀ (recv : Redemption) (start : Node) (p q coupon account : String),
      coupon ≠ "" → '/' ∉ coupon.data → account ≠ "" → '/' ∉ account.data →
      (Redemption.UnmarshalXML sc recv start).2 = none →
      (∃ c ∈ start.children, c.isElem = true ∧ c.name = "coupon") →
      (∀ c ∈ start.children, c.isElem = true → c.name = "coupon" →
        findAttr "href" c.attrs = some (p ++ "/coupons/" ++ coupon)) →
      (∃ c ∈ start.children, c.isElem = true ∧ c.name = "account") →
      (∀ c ∈ start.children, c.isElem = true → c.name = "account" →
        findAttr "href" c.attrs = some (q ++ "/accounts/" ++ account)) →
      (Redemption.UnmarshalXML sc recv start).1.CouponCode = coupon ∧
      (Redemption.UnmarshalXML sc recv start).1.AccountCode = account) ∧
    hrefString.UnmarshalXML "" sampleAccountLink = ("abc123", none) ∧
    (∀ (c : Node) (href : String), findAttr "href" c.attrs = some href →
      pathSegments href = [] →
      (∀ old, hrefString.UnmarshalXML old c = (old, some .ParseError)) ∧
      (∀ old, hrefInt.UnmarshalXML old c = (old, some .ParseError))) ∧
    (∀ (recv : Adjustment) (attrs : List Attr) (cs1 cs2 : List Node) (c : Node) (href : String),
      c.isElem = true → (c.name = "account" ∨ c.name = "invoice") →
      findAttr "href" c.attrs = some href → pathSegments href = [] →
      (unmarshalChildren (AdjustmentRead.unmarshalPath sc) cs1 {}).2 = none →
      Adjustment.UnmarshalXML sc recv (.elem "adjustment" attrs (cs1 ++ c :: cs2))
        = (recv, some .ParseError)) ∧
    (∀ (recv : Redemption) (attrs : List Attr) (cs1 cs2 : List Node) (c : Node) (href : String),
      c.isElem = true → (c.name = "coupon" ∨ c.name = "account") →
      findAttr "href" c.attrs = some href → pathSegments href = [] →
      (unmarshalChildren (RedemptionRead.unmarshalPath sc) cs1 {}).2 = none →
      Redemption.UnmarshalXML sc recv (.elem "redemption" attrs (cs1 ++ c :: cs2))
        = (recv, some .ParseError)) := by
  refine ⟨?_, ?_, ?_, ?_, by decide, ?_, ?_, ?_⟩
  · intro old c p code hne hns
    exact ⟨fun h => hrefString_of_lastSegment old c _ code h (lastSegment_accounts p code hne hns),
      fun h => hrefString_of_lastSegment old c _ code h (lastSegment_coupons p code hne hns)⟩
  · intro old c p n hn h
    exact hrefInt_of_lastSegment old c _ n hn h (lastSegment_invoices p n)
  · intro recv start p q code n hne hns hn hok hex1 hall1 hex2 hall2
    exact ⟨adjustment_AccountCode_of_href sc recv start code hok hex1
        (fun c hc he ht => ⟨_, hall1 c hc he ht, lastSegment_accounts p code hne hns⟩),
      adjustment_InvoiceNumber_of_href sc recv start n hn hok hex2
        (fun c hc he ht => ⟨_, hall2 c hc he ht, lastSegment_invoices q n⟩)⟩
  · intro recv start p q coupon account hne1 hns1 hne2 hns2 hok hex1 hall1 hex2 hall2
    exact ⟨redemption_CouponCode_of_href sc recv start coupon hok hex1
        (fun c hc he ht => ⟨_, hall1 c hc he ht, lastSegment_coupons p coupon hne1 hns1⟩),
      redemption_AccountCode_of_href sc recv start account hok hex2
        (fun c hc he ht => ⟨_, hall2 c hc he ht, lastSegment_accounts q account hne2 hns2⟩)⟩
  · intro c href hattr hseg
    exact href_no_segments c href hattr hseg
  · intro recv attrs cs1 cs2 c href he hname hattr hseg hpre
    apply adjustment_fails_at_child sc recv attrs cs1 cs2 c .ParseError he hpre
    intro v
    rcases hname with hname | hname
    · rw [path_account sc v c hname, (href_no_segments c href hattr hseg).1]
    · rw [path_invoice sc v c hname, (href_no_segments c href hattr hseg).2]
  · intro recv attrs cs1 cs2 c href he hname hattr hseg hpre
    apply redemption_fails_at_child sc recv attrs cs1 cs2 c .ParseError he hpre
    intro v
    rcases hname with hname | hname
    · rw [redemption_path_coupon sc v c hname, (href_no_segments c href hattr hseg).1]
    · rw [redemption_path_account sc v c hname, (href_no_segments c href hattr hseg).1]

theorem href_fields_are_final_segments_witness :
    (Adjustment.UnmarshalXML noScalars sampleInvoiced sampleAdjustmentElement).2 = none ∧
      (Adjustment.UnmarshalXML noScalars sampleInvoiced sampleAdjustmentElement).1.AccountCode
        = "abc123" ∧
      (Adjustment.UnmarshalXML noScalars sampleInvoiced sampleAdjustmentElement).1.InvoiceNumber
        = 1108 ∧
      (Redemption.UnmarshalXML noScalars {} sampleRedemptionElement).1.CouponCode = "special" ∧
      (Redemption.UnmarshalXML noScalars {} sampleRedemptionElement).1.AccountCode = "abc123" ∧
      Adjustment.UnmarshalXML noScalars sampleInvoiced
        (.elem "adjustment" [] ([.elem "uuid" [] [.text "626db120"]] ++
          .elem "account" [⟨"href", "https://api.example.com"⟩] [] :: []))
        = (sampleInvoiced, some .ParseError) :=
  have h := href_fields_are_final_segments noScalars
  have ha := h.2.2.1 sampleInvoiced sampleAdjustmentElement "https://api.example.com"
    "https://api.example.com" "abc123" 1108 (by decide) (by decide) (by decide) (by decide)
    (by decide) (by decide) (by decide) (by decide)
  have hr := h.2.2.2.1 {} sampleRedemptionElement "https://api.example.com"
    "https://api.example.com" "special" "abc123" (by decide) (by decide) (by decide) (by decide)
    (by decide) (by decide) (by decide) (by decide) (by decide)
  ⟨by decide, ha.1, ha.2, hr.1, hr.2,
    h.2.2.2.2.2.2.1 sampleInvoiced [] [.elem "uuid" [] [.text "626db120"]] []
      (.elem "account" [⟨"href", "https://api.example.com"⟩] []) "https://api.example.com"
      rfl (Or.inl rfl) rfl (by decide) (by decide)⟩

/-! ## Webhook dispatch -/

end Recurly
